import Mathlib

/-!
Verification development for the grievance deduplication backend.

The JavaScript sources are shallowly embedded: JS numbers are modelled as
exact rationals (`ℚ`) where the code only adds, multiplies, compares and
clamps, and as reals (`ℝ`) where square roots occur (embedding vectors and
cosine similarity); strings are Lean `String`s; database reads and network
fetches are passed in explicitly as values of result types.
-/

/-- Classification status of a grievance (`'UNIQUE' | 'NEAR_DUPLICATE' | 'DUPLICATE'`). -/
inductive Status where
  | UNIQUE
  | NEAR_DUPLICATE
  | DUPLICATE
deriving DecidableEq, Repr

/-- The six threshold kinds stored in `adaptive_thresholds`
(schema CHECK constraint in schema_migration_v2.sql). -/
inductive ThresholdKind where
  | duplicate
  | near_duplicate
  | cosine_weight
  | jaccard_weight
  | ngram_weight
  | metadata_weight
deriving DecidableEq, Repr

/-- The threshold map returned by `getAdaptiveThresholds`
(src/backend/src/nlp/adaptiveThreshold.js). -/
structure Thresholds where
  duplicate : ℚ
  near_duplicate : ℚ
  cosine_weight : ℚ
  jaccard_weight : ℚ
  ngram_weight : ℚ
  metadata_weight : ℚ
deriving DecidableEq, Repr

/-- Read one kind out of a threshold map (JS property access `thresholds[k]`). -/
def Thresholds.kindVal (t : Thresholds) : ThresholdKind → ℚ
  | .duplicate => t.duplicate
  | .near_duplicate => t.near_duplicate
  | .cosine_weight => t.cosine_weight
  | .jaccard_weight => t.jaccard_weight
  | .ngram_weight => t.ngram_weight
  | .metadata_weight => t.metadata_weight

/-- Overwrite one kind in a threshold map
(JS property write `thresholds[row.threshold_type] = row.current_value`). -/
def Thresholds.setKind (t : Thresholds) : ThresholdKind → ℚ → Thresholds
  | .duplicate, v => { t with duplicate := v }
  | .near_duplicate, v => { t with near_duplicate := v }
  | .cosine_weight, v => { t with cosine_weight := v }
  | .jaccard_weight, v => { t with jaccard_weight := v }
  | .ngram_weight, v => { t with ngram_weight := v }
  | .metadata_weight, v => { t with metadata_weight := v }

/-- The in-function default map of `getAdaptiveThresholds` (try branch),
overridden by whatever rows the store holds. -/
def defaultThresholds : Thresholds :=
  { duplicate := 60/100
    near_duplicate := 60/100
    cosine_weight := 55/100
    jaccard_weight := 25/100
    ngram_weight := 15/100
    metadata_weight := 5/100 }

/-- The map returned by the catch branch of `getAdaptiveThresholds`
when the database read throws. -/
def catchThresholds : Thresholds :=
  { duplicate := 50/100
    near_duplicate := 50/100
    cosine_weight := 55/100
    jaccard_weight := 25/100
    ngram_weight := 15/100
    metadata_weight := 5/100 }

/-- A row of the `adaptive_thresholds` table as consumed by the read path:
`threshold_type` and `current_value`.  The schema CHECK constraint limits
`threshold_type` to the six kinds. -/
def ThresholdRowRead := ThresholdKind × ℚ

/-- `getAdaptiveThresholds` (adaptiveThreshold.js lines 9-43).  The database
read is passed in as an `Except`: `.ok rows` is a successful `SELECT`
(possibly with zero rows), `.error` is a thrown database error.  On success
the hard-coded default map is built and each returned row overwrites its
kind; on error the catch branch returns a *different* hard-coded map. -/
def getAdaptiveThresholds (dbRead : Except Unit (List ThresholdRowRead)) : Thresholds :=
  match dbRead with
  | .ok rows => rows.foldl (fun t r => t.setKind r.1 r.2) defaultThresholds
  | .error _ => catchThresholds

/-- `classifyWithAdaptiveThresholds` (adaptiveThreshold.js lines 181-189). -/
def classifyWithAdaptiveThresholds (combinedScore : ℚ) (thresholds : Thresholds) : Status :=
  if combinedScore ≥ thresholds.duplicate then .DUPLICATE
  else if combinedScore ≥ thresholds.near_duplicate then .NEAR_DUPLICATE
  else .UNIQUE

/-- One stored row of `adaptive_thresholds` as the write path sees it:
current value plus min/max bounds. -/
structure ThresholdRow where
  current : ℚ
  min_value : ℚ
  max_value : ℚ
deriving DecidableEq, Repr

/-- The threshold store state: one row per kind (the seed migration inserts
all six kinds). -/
def ThresholdState := ThresholdKind → ThresholdRow

/-- Effective lower bound used by `updateThresholdsFromFeedback`:
`bounds?.min_value || 0.3` — a JS falsy (zero) stored bound falls back to 0.3. -/
def effMin (row : ThresholdRow) : ℚ :=
  if row.min_value = 0 then 3/10 else row.min_value

/-- Effective upper bound used by `updateThresholdsFromFeedback`:
`bounds?.max_value || 0.95`. -/
def effMax (row : ThresholdRow) : ℚ :=
  if row.max_value = 0 then 95/100 else row.max_value

/-- The learning rate `LEARNING_RATE = 0.05`. -/
def LEARNING_RATE : ℚ := 5/100

/-- The transition table of `updateThresholdsFromFeedback` (lines 66-88):
which kind is adjusted and by how much, `none` when no branch matches. -/
def adjustmentFor (originalStatus correctedStatus : Status) : Option (ThresholdKind × ℚ) :=
  match originalStatus, correctedStatus with
  | .UNIQUE, .DUPLICATE => some (.duplicate, -LEARNING_RATE)
  | .DUPLICATE, .UNIQUE => some (.duplicate, LEARNING_RATE)
  | .UNIQUE, .NEAR_DUPLICATE => some (.near_duplicate, -LEARNING_RATE)
  | .NEAR_DUPLICATE, .UNIQUE => some (.near_duplicate, LEARNING_RATE)
  | .NEAR_DUPLICATE, .DUPLICATE => some (.near_duplicate, LEARNING_RATE)
  | .DUPLICATE, .NEAR_DUPLICATE => some (.duplicate, LEARNING_RATE)
  | _, _ => none

/-- `updateThresholdsFromFeedback` (adaptiveThreshold.js lines 53-123) acting
on the stored state.  The current value of the adjusted kind is read through
`getAdaptiveThresholds` (with all rows present it is the stored
`current_value`), the bounds come from the row itself, and the new value is
`Math.max(minVal, Math.min(maxVal, currentValue + adjustment))`.  Only the
adjusted row's `current_value` changes; no cross-kind check is performed. -/
def updateThresholdsFromFeedback (st : ThresholdState)
    (originalStatus correctedStatus : Status) : ThresholdState :=
  match adjustmentFor originalStatus correctedStatus with
  | none => st
  | some (k, adj) =>
    let row := st k
    let newValue := max (effMin row) (min (effMax row) (row.current + adj))
    fun k' => if k' = k then { row with current := newValue } else st k'

/-- Repeated feedback application: `feedbackIter st o c n` is the state after
`n` feedback events all carrying the same `(original, corrected)` pair. -/
def feedbackIter (st : ThresholdState) (o c : Status) : ℕ → ThresholdState
  | 0 => st
  | n + 1 => updateThresholdsFromFeedback (feedbackIter st o c n) o c

/-! ## Text preprocessing pipeline (src/nlp/textPreprocessing.js) -/

/-- JS whitespace class `\s` restricted to the ASCII range
(space, tab, line feed, vertical tab, form feed, carriage return). -/
def jsWs (c : Char) : Bool :=
  c = ' ' ∨ c = '\t' ∨ c = '\n' ∨ c = '\r' ∨ c.toNat = 11 ∨ c.toNat = 12

/-- JS word character class `\w` = `[A-Za-z0-9_]`. -/
def isWordChar (c : Char) : Bool :=
  ('a' ≤ c ∧ c ≤ 'z') ∨ ('A' ≤ c ∧ c ≤ 'Z') ∨ ('0' ≤ c ∧ c ≤ '9') ∨ c = '_'

/-- ASCII letter. -/
def isAsciiLetter (c : Char) : Bool :=
  ('a' ≤ c ∧ c ≤ 'z') ∨ ('A' ≤ c ∧ c ≤ 'Z')

/-- ASCII digit. -/
def isDigit09 (c : Char) : Bool := '0' ≤ c ∧ c ≤ '9'

/-- Word boundary `\b` between an optional previous character and the
current character (start and end of string count as non-word). -/
def jsBoundary (prev cur : Option Char) : Bool :=
  (match prev with | some c => isWordChar c | none => false)
    ≠ (match cur with | some c => isWordChar c | none => false)

/-- Word boundary inside a list, between positions `n-1` and `n`. -/
def boundaryAt (l : List Char) (n : ℕ) : Bool :=
  jsBoundary (l.get? (n - 1)) (l.get? n)

/-- Case-insensitive literal match (the URL regex carries the `i` flag);
returns the remaining characters on success. -/
def matchLitCI : List Char → List Char → Option (List Char)
  | [], l => some l
  | _ :: _, [] => none
  | p :: ps, c :: cs => if c.toLower = p then matchLitCI ps cs else none

/-- Generic global regex-replace driver: scan left to right carrying the
previous original character (for boundary assertions); each nonempty match
is replaced by a single space, scanning resumes after the match.  Fuel is
the input length, enough because every step consumes at least one char. -/
def replaceScanAux (tm : Option Char → List Char → Option (List Char)) :
    ℕ → Option Char → List Char → List Char
  | 0, _, l => l
  | _ + 1, _, [] => []
  | fuel + 1, prev, c :: rest =>
    match tm prev (c :: rest) with
    | some rem =>
      let rem' := if rem.length ≤ rest.length then rem else rest
      let consumed := (c :: rest).take ((c :: rest).length - rem'.length)
      let prev' := match consumed.getLast? with | some d => some d | none => prev
      ' ' :: replaceScanAux tm fuel prev' rem'
    | none => c :: replaceScanAux tm fuel (some c) rest

/-- Run a global replace-with-space over a string. -/
def replaceScan (tm : Option Char → List Char → Option (List Char)) (s : String) : String :=
  ⟨replaceScanAux tm s.data.length none s.data⟩

/-- URL regex char class `[-a-zA-Z0-9@:%._\+~#=]`. -/
def isUrlXChar (c : Char) : Bool :=
  isAsciiLetter c ∨ isDigit09 c ∨
    c = '-' ∨ c = '@' ∨ c = ':' ∨ c = '%' ∨ c = '.' ∨ c = '_' ∨ c = '+' ∨ c = '~' ∨
    c = '#' ∨ c = '='

/-- URL regex char class `[a-zA-Z0-9()]` (after the dot). -/
def isUrlYChar (c : Char) : Bool :=
  isAsciiLetter c ∨ isDigit09 c ∨ c = '(' ∨ c = ')'

/-- URL regex tail class `[-a-zA-Z0-9()@:%_\+.~#?&//=]`. -/
def isUrlTailChar (c : Char) : Bool :=
  isAsciiLetter c ∨ isDigit09 c ∨
    c = '-' ∨ c = '(' ∨ c = ')' ∨ c = '@' ∨ c = ':' ∨ c = '%' ∨ c = '_' ∨ c = '+' ∨
    c = '.' ∨ c = '~' ∨ c = '#' ∨ c = '?' ∨ c = '&' ∨ c = '/' ∨ c = '='

/-- After the literal dot of the URL regex: `[a-zA-Z0-9()]{1,6}\b` followed by
the greedy tail; `j` counts down over candidate lengths of the `{1,6}` part. -/
def urlTryY (rest : List Char) : ℕ → Option (List Char)
  | 0 => none
  | j + 1 =>
    if boundaryAt rest (j + 1) then
      some ((rest.drop (j + 1)).dropWhile isUrlTailChar)
    else urlTryY rest j

/-- Backtracking over the position of the literal dot in the URL body
(`X{1,256}\.` with the greedy `X` run `xs`); indices count down, the dot
needs at least one `X` char before it. -/
def urlTryK (m xs : List Char) : ℕ → Option (List Char)
  | 0 => none
  | k + 1 =>
    if xs.getD (k + 1) ' ' = '.' then
      let rest := m.drop (k + 2)
      let yr := rest.takeWhile isUrlYChar
      match urlTryY rest (min 6 yr.length) with
      | some r => some r
      | none => urlTryK m xs k
    else urlTryK m xs k

/-- URL body after the scheme (and optional `www.`):
`[-a-zA-Z0-9@:%._\+~#=]{1,256}\.[a-zA-Z0-9()]{1,6}\b([-…]*)`. -/
def urlBodyMatch (m : List Char) : Option (List Char) :=
  let xs := (m.takeWhile isUrlXChar).take 256
  if xs.length < 2 then none else urlTryK m xs (xs.length - 1)

/-- Matcher for the URL pattern of `removeUrls`
(`/https?:\/\/(www\.)?…/gi`).  The previous-character context is unused
(no leading boundary assertion). -/
def urlMatch (_prev : Option Char) (l : List Char) : Option (List Char) :=
  match matchLitCI ['h', 't', 't', 'p'] l with
  | none => none
  | some r1 =>
    let r2 := match r1 with
      | c :: cs => if c.toLower = 's' then cs else r1
      | [] => r1
    match matchLitCI [':', '/', '/'] r2 with
    | none => none
    | some r3 =>
      match matchLitCI ['w', 'w', 'w', '.'] r3 with
      | some r4 =>
        match urlBodyMatch r4 with
        | some rest => some rest
        | none => urlBodyMatch r3
      | none => urlBodyMatch r3

/-- `removeUrls` (textPreprocessing.js lines 54-57). -/
def removeUrls (s : String) : String := replaceScan urlMatch s

/-- Email local-part class `[A-Za-z0-9._%+-]`. -/
def isEmailLocal (c : Char) : Bool :=
  isAsciiLetter c ∨ isDigit09 c ∨ c = '.' ∨ c = '_' ∨ c = '%' ∨ c = '+' ∨ c = '-'

/-- Email domain class `[A-Za-z0-9.-]`. -/
def isEmailDomain (c : Char) : Bool :=
  isAsciiLetter c ∨ isDigit09 c ∨ c = '.' ∨ c = '-'

/-- Email TLD class `[A-Z|a-z]` (the source pattern literally includes `|`). -/
def isTldChar (c : Char) : Bool := isAsciiLetter c ∨ c = '|'

/-- `[A-Z|a-z]{2,}\b`: greedy TLD length counting down to the minimum of 2. -/
def emailTryTld (rest : List Char) : ℕ → Option (List Char)
  | 0 => none
  | 1 => none
  | j + 2 =>
    if boundaryAt rest (j + 2) then some (rest.drop (j + 2))
    else emailTryTld rest (j + 1)

/-- Backtracking over the dot position in the email domain
(`[A-Za-z0-9.-]+\.` with greedy run `dom`). -/
def emailTryK (m2 dom : List Char) : ℕ → Option (List Char)
  | 0 => none
  | k + 1 =>
    if dom.getD (k + 1) ' ' = '.' then
      let rest := m2.drop (k + 2)
      let run := rest.takeWhile isTldChar
      match emailTryTld rest run.length with
      | some r => some r
      | none => emailTryK m2 dom k
    else emailTryK m2 dom k

/-- Matcher for `removeEmails`
(`/\b[A-Za-z0-9._%+-]+@[A-Za-z0-9.-]+\.[A-Z|a-z]{2,}\b/g`). -/
def emailMatch (prev : Option Char) (l : List Char) : Option (List Char) :=
  match l with
  | [] => none
  | c :: _ =>
    if ¬ jsBoundary prev (some c) then none
    else
      let loc := l.takeWhile isEmailLocal
      if loc.length = 0 then none
      else
        match l.drop loc.length with
        | '@' :: m2 =>
          let dom := m2.takeWhile isEmailDomain
          if dom.length < 2 then none
          else emailTryK m2 dom (dom.length - 1)
        | _ => none

/-- `removeEmails` (textPreprocessing.js lines 62-65). -/
def removeEmails (s : String) : String := replaceScan emailMatch s

/-- Ten consecutive ASCII digits at the head of the list. -/
def tenDigits (l : List Char) : Bool :=
  (l.take 10).length = 10 ∧ (l.take 10).all isDigit09

/-- Country-code backtracking for `(\+\d{1,3}[- ]?)?\d{10}`: `d` counts down
over the greedy `\d{1,3}` length; the optional separator is tried greedily. -/
def phoneTryD (r : List Char) : ℕ → Option (List Char)
  | 0 => none
  | d + 1 =>
    if ((r.take (d + 1)).all isDigit09 ∧ (r.take (d + 1)).length = d + 1) then
      let afterD := r.drop (d + 1)
      match afterD with
      | c :: afterSep =>
        if (c = '-' ∨ c = ' ') ∧ tenDigits afterSep then some (afterSep.drop 10)
        else if tenDigits afterD then some (afterD.drop 10)
        else phoneTryD r d
      | [] => phoneTryD r d
    else phoneTryD r d

/-- First alternative of the phone pattern: `(\+\d{1,3}[- ]?)?\d{10}`. -/
def phoneAlt1 (l : List Char) : Option (List Char) :=
  match l with
  | '+' :: r => phoneTryD r (min 3 (r.takeWhile isDigit09).length)
  | _ => if tenDigits l then some (l.drop 10) else none

/-- Second alternative of the phone pattern: `\(\d{3}\)\s*\d{3}[-]?\d{4}`. -/
def phoneAlt2 (l : List Char) : Option (List Char) :=
  match l with
  | '(' :: r =>
    if ((r.take 3).all isDigit09 ∧ (r.take 3).length = 3) then
      match r.drop 3 with
      | ')' :: r2 =>
        let r3 := r2.dropWhile jsWs
        if ((r3.take 3).all isDigit09 ∧ (r3.take 3).length = 3) then
          let r4 := r3.drop 3
          let r5 := match r4 with
            | '-' :: r5 => if ((r5.take 4).all isDigit09 ∧ (r5.take 4).length = 4)
                           then some (r5.drop 4) else none
            | _ => none
          match r5 with
          | some rest => some rest
          | none =>
            if ((r4.take 4).all isDigit09 ∧ (r4.take 4).length = 4)
            then some (r4.drop 4) else none
        else none
      | _ => none
    else none
  | _ => none

/-- Matcher for `removePhoneNumbers`
(`/(\+\d{1,3}[- ]?)?\d{10}|\(\d{3}\)\s*\d{3}[-]?\d{4}/g`). -/
def phoneMatch (_prev : Option Char) (l : List Char) : Option (List Char) :=
  match phoneAlt1 l with
  | some r => some r
  | none => phoneAlt2 l

/-- `removePhoneNumbers` (textPreprocessing.js lines 70-73). -/
def removePhoneNumbers (s : String) : String := replaceScan phoneMatch s

/-- `normalizeUnicode` (textPreprocessing.js lines 47-49): JS
`normalize('NFD')` followed by stripping combining marks U+0300..U+036F.
NFD decomposition is the identity on ASCII text, which is the domain the
claims evaluate; here it is modelled as the identity, so only the combining
mark strip remains. -/
def normalizeUnicode (s : String) : String :=
  ⟨s.data.filter (fun c => ¬ (0x300 ≤ c.toNat ∧ c.toNat ≤ 0x36f))⟩

/-- JS `toLowerCase` restricted to ASCII. -/
def jsToLowerCase (s : String) : String := ⟨s.data.map Char.toLower⟩

/-- `removeSpecialChars` (lines 78-81): replace every char outside
`[a-z0-9\s]` with a space. -/
def removeSpecialChars (s : String) : String :=
  ⟨s.data.map (fun c =>
    if ('a' ≤ c ∧ c ≤ 'z') ∨ ('0' ≤ c ∧ c ≤ '9') ∨ jsWs c then c else ' ')⟩

/-- Collapse `\s+` runs into single spaces (the replacement char). -/
def collapseWsAux : Bool → List Char → List Char
  | _, [] => []
  | inWs, c :: rest =>
    if jsWs c then
      if inWs then collapseWsAux true rest else ' ' :: collapseWsAux true rest
    else c :: collapseWsAux false rest

/-- JS `String.prototype.trim`. -/
def jsTrim (s : String) : String :=
  ⟨((s.data.dropWhile jsWs).reverse.dropWhile jsWs).reverse⟩

/-- `normalizeWhitespace` (lines 86-88): `replace(/\s+/g, ' ')` then trim. -/
def normalizeWhitespace (s : String) : String :=
  jsTrim ⟨collapseWsAux false s.data⟩

/-- JS `split(' ')`: split on every single space character, keeping empty
tokens (structural model of `String.splitOn " "`). -/
def splitOnSpaceAux : List Char → List Char → List String
  | acc, [] => [⟨acc.reverse⟩]
  | acc, c :: rest =>
    if c = ' ' then ⟨acc.reverse⟩ :: splitOnSpaceAux [] rest
    else splitOnSpaceAux (c :: acc) rest

/-- JS `text.split(' ')`. -/
def splitOnSpace (s : String) : List String := splitOnSpaceAux [] s.data

/-- JS `array.join(' ')`. -/
def joinSpace : List String → String
  | [] => ""
  | [w] => w
  | w :: rest => w ++ " " ++ joinSpace rest

/-- Suffix test on strings (structural model of `endsWith`). -/
def strEndsWith (w suf : String) : Bool := suf.data.isSuffixOf w.data

/-- Strip `n` characters from the end of a string. -/
def strDropRight (w : String) (n : ℕ) : String := ⟨w.data.take (w.data.length - n)⟩

/-- The stop-word set of the source (textPreprocessing.js lines 93-108),
in source order. -/
def STOPWORDS : List String :=
  ["i", "me", "my", "myself", "we", "our", "ours", "ourselves", "you", "your",
   "yours", "yourself", "yourselves", "he", "him", "his", "himself", "she",
   "her", "hers", "herself", "it", "its", "itself", "they", "them", "their",
   "theirs", "themselves", "what", "which", "who", "whom", "this", "that",
   "these", "those", "am", "is", "are", "was", "were", "be", "been", "being",
   "have", "has", "had", "having", "do", "does", "did", "doing", "a", "an",
   "the", "and", "but", "if", "or", "because", "as", "until", "while", "of",
   "at", "by", "for", "with", "about", "against", "between", "into", "through",
   "during", "before", "after", "above", "below", "to", "from", "up", "down",
   "in", "out", "on", "off", "over", "under", "again", "further", "then",
   "once", "here", "there", "when", "where", "why", "how", "all", "both",
   "each", "few", "more", "most", "other", "some", "such", "no", "nor", "not",
   "only", "own", "same", "so", "than", "too", "very", "s", "t", "can", "will",
   "just", "don", "should", "now"]

/-- `removeStopwords` (lines 113-117): split on single spaces, drop
stop-words and single-character tokens, rejoin. -/
def removeStopwords (s : String) : String :=
  joinSpace ((splitOnSpace s).filter (fun w => ¬ STOPWORDS.contains w ∧ w.length > 1))

/-- The irregular form map of `lemmatizeWord` (lines 137-149). -/
def irregulars : List (String × String) :=
  [("complained", "complain"), ("complaints", "complain"),
   ("issues", "issue"), ("problems", "problem"),
   ("services", "service"), ("products", "product"),
   ("requests", "request"), ("responses", "response"),
   ("delayed", "delay"), ("delays", "delay"),
   ("refunds", "refund"), ("refunded", "refund"),
   ("resolved", "resolve"), ("resolving", "resolve"),
   ("received", "receive"), ("receiving", "receive"),
   ("damaged", "damage"), ("damaging", "damage"),
   ("charged", "charge"), ("charges", "charge"),
   ("cancelled", "cancel"), ("cancelling", "cancel")]

/-- One suffix rule: alternative suffixes in greedy (longest-first) order
with their replacements, plus the minimum word length guard.  The two
patterns with an optional `s?` expand to two alternatives. -/
structure LemRule where
  alts : List (String × String)
  minLen : ℕ

/-- The ordered suffix rules of `lemmatizeWord` (lines 156-183). -/
def lemmaRules : List LemRule :=
  [⟨[("ications", "icate"), ("ication", "icate")], 7⟩,
   ⟨[("ational", "ate")], 7⟩,
   ⟨[("tional", "tion")], 6⟩,
   ⟨[("encies", "ency")], 6⟩,
   ⟨[("ancies", "ancy")], 6⟩,
   ⟨[("ement", "")], 6⟩,
   ⟨[("ments", "")], 6⟩,
   ⟨[("ness", "")], 5⟩,
   ⟨[("ities", "ity")], 6⟩,
   ⟨[("ings", ""), ("ing", "")], 5⟩,
   ⟨[("edly", "")], 5⟩,
   ⟨[("ied", "y")], 4⟩,
   ⟨[("ies", "y")], 4⟩,
   ⟨[("ed", "")], 4⟩,
   ⟨[("es", "")], 4⟩,
   ⟨[("s", "")], 3⟩,
   ⟨[("tion", "te")], 5⟩,
   ⟨[("ment", "")], 5⟩,
   ⟨[("ful", "")], 5⟩,
   ⟨[("ous", "")], 5⟩,
   ⟨[("ive", "")], 5⟩,
   ⟨[("ize", "")], 5⟩,
   ⟨[("ise", "")], 5⟩,
   ⟨[("ly", "")], 4⟩,
   ⟨[("er", "")], 4⟩,
   ⟨[("or", "")], 4⟩]

/-- Apply the first alternative whose suffix matches (greedy order). -/
def applyAlts (w : String) : List (String × String) → Option String
  | [] => none
  | (suf, rep) :: rest =>
    if strEndsWith w suf then some (strDropRight w suf.length ++ rep)
    else applyAlts w rest

/-- Walk the ordered rule list; the first rule whose length guard and
pattern both hold fires (at most one rule per token). -/
def applyRules (w : String) : List LemRule → String
  | [] => w
  | r :: rest =>
    if w.length ≥ r.minLen then
      match applyAlts w r.alts with
      | some lemma0 => lemma0
      | none => applyRules w rest
    else applyRules w rest

/-- `lemmatizeWord` (lines 132-194).  The final `return lemma || word`
returns the original word when the replacement came out empty. -/
def lemmatizeWord (word : String) : String :=
  if word.length ≤ 2 then word
  else
    match irregulars.find? (fun p => p.1 = word) with
    | some p => p.2
    | none =>
      let lemma0 := applyRules word lemmaRules
      if lemma0 = "" then word else lemma0

/-- `simpleLemmatization` (lines 123-127). -/
def simpleLemmatization (s : String) : String :=
  joinSpace ((splitOnSpace s).map lemmatizeWord)

/-- `preprocessText` (textPreprocessing.js lines 9-42), the full
order-sensitive pipeline.  The `!text` guard returns the empty string for
an empty input; non-string inputs are outside the embedding. -/
def preprocessText (text : String) : String :=
  if text = "" then ""
  else
    let p1 := normalizeUnicode text
    let p2 := jsToLowerCase p1
    let p3 := removeUrls p2
    let p4 := removeEmails p3
    let p5 := removePhoneNumbers p4
    let p6 := removeSpecialChars p5
    let p7 := normalizeWhitespace p6
    let p8 := removeStopwords p7
    let p9 := simpleLemmatization p8
    jsTrim p9

/-! ## Embedding client and similarity kernel (src/nlp/embedding.js) -/

/-- Outcome of a `fetch`: parsed 2xx body, non-2xx response, or a thrown
network error. -/
inductive FetchResult (α : Type) where
  | ok (body : α)
  | httpErr
  | netErr

/-- JSON body shapes the embedding endpoints can return: an array of number
arrays, a flat number array, or anything else. -/
inductive BatchBody where
  | nested (vs : List (List ℝ))
  | flat (v : List ℝ)
  | other

/-- Split on runs of JS whitespace (`split(/\s+/)`) and drop empty tokens
(the `filter(w => w.length > 0)`), as in `generateFallbackEmbedding`. -/
def wsTokensAux : List Char → List Char → List String
  | acc, [] => if acc.isEmpty then [] else [⟨acc.reverse⟩]
  | acc, c :: rest =>
    if jsWs c then
      if acc.isEmpty then wsTokensAux [] rest
      else ⟨acc.reverse⟩ :: wsTokensAux [] rest
    else wsTokensAux (c :: acc) rest

/-- Whitespace tokenisation of a string. -/
def wsTokens (s : String) : List String := wsTokensAux [] s.data

/-- One word of the fallback accumulation: for each character position `i`,
`position = (charCode * (i+1) + idx) % 384` receives `+ 1/(idx+1)`. -/
def fallbackStepWord (v : ℕ → ℚ) (idx : ℕ) (word : String) : ℕ → ℚ :=
  (List.range word.length).foldl
    (fun v i =>
      let pos := ((word.data.getD i ' ').toNat * (i + 1) + idx) % 384
      fun p => if p = pos then v p + 1 / (idx + 1) else v p)
    v

/-- The raw (pre-normalization) 384-slot accumulation of
`generateFallbackEmbedding` (embedding.js lines 393-408). -/
def fallbackAccum (text : String) : ℕ → ℚ :=
  ((wsTokens (jsToLowerCase text)).enum).foldl
    (fun v p => fallbackStepWord v p.1 p.2)
    (fun _ => 0)

/-- The fallback vector before unit normalization, materialised. -/
def fallbackVector (text : String) : List ℚ :=
  (List.range 384).map (fallbackAccum text)

/-- `normalizeVector` (embedding.js lines 413-421): divide by the euclidean
magnitude unless it is zero. -/
noncomputable def normalizeVector (vector : List ℝ) : List ℝ :=
  let magnitude := Real.sqrt ((vector.map (fun val => val * val)).sum)
  if magnitude = 0 then vector else vector.map (fun val => val / magnitude)

/-- `generateFallbackEmbedding` (embedding.js lines 393-408): a synthetic
hash-based vector computed locally from the text alone. -/
noncomputable def generateFallbackEmbedding (text : String) : List ℝ :=
  normalizeVector ((fallbackVector text).map (fun q => (q : ℝ)))

/-- Body shapes for the single-text HuggingFace call. -/
inductive SingleBody where
  | arr (v : List ℝ)
  | nonArr

/-- `generateEmbedding` (embedding.js lines 232-273): on a non-2xx response,
a thrown fetch, or a non-array body, the SYNTHETIC fallback vector is
returned; only an array body is passed through. -/
noncomputable def generateEmbedding (resp : FetchResult SingleBody) (text : String) : List ℝ :=
  match resp with
  | .ok (.arr v) => v
  | .ok .nonArr => generateFallbackEmbedding text
  | .httpErr => generateFallbackEmbedding text
  | .netErr => generateFallbackEmbedding text

/-- Response validation of the HuggingFace batch path (embedding.js lines
357-371): an array whose length matches the inputs and whose FIRST element
is a 384-array is accepted as-is; otherwise a flat number array is accepted
only for a single input text. -/
def validateBatchResp (texts : List String) (b : BatchBody) : Option (List (List ℝ)) :=
  match b with
  | .nested vs =>
    match vs.head? with
    | some f => if vs.length = texts.length ∧ f.length = 384 then some vs else none
    | none => none
  | .flat v => if texts.length = 1 ∧ ¬ v.isEmpty then some [v] else none
  | .other => none

/-- Response validation of the custom-server path (lines 304-314): only the
nested shape is accepted, no singleton compatibility case. -/
def validateCustomResp (texts : List String) (b : BatchBody) : Option (List (List ℝ)) :=
  match b with
  | .nested vs =>
    match vs.head? with
    | some f => if vs.length = texts.length ∧ f.length = 384 then some vs else none
    | none => none
  | _ => none

/-- The retry loop over the `MAX_RETRIES = 3` HuggingFace attempts; when all
attempts fail the final `throw` carries the source message. -/
def hfAttempts (texts : List String) : List (FetchResult BatchBody) → Except String (List (List ℝ))
  | [] => .error "Failed to generate embeddings - check API token"
  | r :: rest =>
    match r with
    | .ok b =>
      match validateBatchResp texts b with
      | some vs => .ok vs
      | none => hfAttempts texts rest
    | _ => hfAttempts texts rest

/-- `generateBatchEmbeddings` (embedding.js lines 287-387).  The custom
server response (when a custom URL is configured) and the three HuggingFace
attempt responses are passed in explicitly.  All-failures THROWS instead of
falling back to synthetic vectors. -/
def generateBatchEmbeddings (texts : List String)
    (customResp : Option (FetchResult BatchBody))
    (r1 r2 r3 : FetchResult BatchBody) : Except String (List (List ℝ)) :=
  if texts.isEmpty then .ok []
  else
    match customResp with
    | some (.ok b) =>
      match validateCustomResp texts b with
      | some vs => .ok vs
      | none => hfAttempts texts [r1, r2, r3]
    | some _ => hfAttempts texts [r1, r2, r3]
    | none => hfAttempts texts [r1, r2, r3]

/-- Dot product of two embedding vectors (the loop of `cosineSimilarity`
runs over paired components). -/
def dotList (v w : List ℝ) : ℝ := (List.zipWith (fun a b => a * b) v w).sum

/-- Sum of squared components (`mag1`/`mag2` accumulators before `sqrt`). -/
def sumSq (v : List ℝ) : ℝ := dotList v v

/-- Core of `cosineSimilarity` (embedding.js lines 431-454) after the
dimension check: zero magnitude yields 0, otherwise the normalised dot
product. -/
noncomputable def cosineSimRaw (v w : List ℝ) : ℝ :=
  let dotProduct := dotList v w
  let mag1 := Real.sqrt (sumSq v)
  let mag2 := Real.sqrt (sumSq w)
  if mag1 = 0 ∨ mag2 = 0 then 0 else dotProduct / (mag1 * mag2)

/-- `cosineSimilarity` including the dimension guard, which throws in the
source. -/
noncomputable def cosineSimilarity (v w : List ℝ) : Except String ℝ :=
  if v.length ≠ w.length then .error "Vectors must have same dimensions"
  else .ok (cosineSimRaw v w)

/-- `computeSimilarityMatrix` (dbscan.js lines 73-94): diagonal pinned to
1.0, strictly-lower entries mirrored from the strictly-upper entries, which
are computed by `cosineSimilarity` on the two embeddings. -/
noncomputable def computeSimilarityMatrix (embs : List (List ℝ)) (i j : ℕ) : ℝ :=
  if i = j then 1
  else if j < i then cosineSimRaw (embs.getD j []) (embs.getD i [])
  else cosineSimRaw (embs.getD i []) (embs.getD j [])

/-! ## Contextual similarity kernel (src/batch/batchProcessor.js) -/

/-- JS `Math.round`: nearest integer, halves toward positive infinity. -/
noncomputable def jsRound (x : ℝ) : ℝ := ⌊x + 1/2⌋

/-- `Math.round(x * 1000) / 1000`, the 3-decimal rounding used throughout. -/
noncomputable def round3 (x : ℝ) : ℝ := jsRound (x * 1000) / 1000

/-- JS `w || d`: a falsy (zero) weight falls back to the default. -/
def orDefault (w d : ℚ) : ℚ := if w = 0 then d else w

/-- `calculateAdaptiveWeightedScore` (adaptiveThreshold.js lines 197-217):
weights from the threshold map with falsy fallbacks 0.50/0.25/0.15/0.10,
normalised by their sum, rounded to 3 decimals.  (In JS a zero total weight
would produce NaN; in this embedding division by zero yields 0.) -/
noncomputable def calculateAdaptiveWeightedScore
    (cosine jaccard ngram metadata : ℝ) (thresholds : Thresholds) : ℝ :=
  let cosineWeight : ℝ := (orDefault thresholds.cosine_weight (50/100) : ℚ)
  let jaccardWeight : ℝ := (orDefault thresholds.jaccard_weight (25/100) : ℚ)
  let ngramWeight : ℝ := (orDefault thresholds.ngram_weight (15/100) : ℚ)
  let metadataWeight : ℝ := (orDefault thresholds.metadata_weight (10/100) : ℚ)
  let totalWeight := cosineWeight + jaccardWeight + ngramWeight + metadataWeight
  round3 ((cosine * cosineWeight + jaccard * jaccardWeight + ngram * ngramWeight +
    metadata * metadataWeight) / totalWeight)

/-- The token set of a processed text: `new Set(text.split(' ').filter(w => w.length > 0))`. -/
def tokenSetOf (t : String) : Finset String :=
  ((splitOnSpace t).filter (fun w => w.length > 0)).toFinset

/-- `extractNGramsFromWords` (embedding.js lines 568-574). -/
def extractNGramsFromWords (ws : List String) (n : ℕ) : List String :=
  (List.range (ws.length + 1 - n)).map (fun i => joinSpace ((ws.drop i).take n))

/-- `calculateNGramOverlap` (embedding.js lines 548-563): Jaccard over the
n-gram sets of the two texts, 0 when either n-gram list is empty. -/
def calculateNGramOverlap (text1 text2 : String) (n : ℕ) : ℚ :=
  let ngrams1 := extractNGramsFromWords (splitOnSpace text1) n
  let ngrams2 := extractNGramsFromWords (splitOnSpace text2) n
  if ngrams1.isEmpty ∨ ngrams2.isEmpty then 0
  else
    let set1 := ngrams1.toFinset
    let set2 := ngrams2.toFinset
    let unionSet := set1 ∪ set2
    if unionSet.card = 0 then 0 else ((set1 ∩ set2).card : ℚ) / unionSet.card

/-- The common-word deboost list of `computeContextualSimilarity`
(batchProcessor.js lines 440-444). -/
def commonWords : List String :=
  ["problem", "issue", "complaint", "please", "help", "need", "request",
   "government", "department", "office", "area", "road", "water", "service",
   "days", "weeks", "months", "time", "action", "taken", "urgent"]

/-- The location-keyword test of `computeContextualSimilarity` (lines
452-455): the case-insensitive full-word alternation or a pure digit
string. -/
def isLocationToken (w : String) : Bool :=
  ["sector", "ward", "block", "colony", "nagar", "road", "chowk", "market",
    "park", "school", "hospital", "station"].contains (jsToLowerCase w) ∨
  (¬ w.data.isEmpty ∧ w.data.all isDigit09)

/-- A grievance as the kernel sees it.  `category = ""` models a missing
(falsy) category; `metadataCategory` models `metadata?.category` on the
second argument (the pool side), also empty when absent.  The source reads
`grievance2.processedText || grievance2.text`; pool entries always carry the
text in the field the kernel reads, modelled by the single
`processedText`. -/
structure GrievanceK where
  embedding : List ℝ
  processedText : String
  category : String
  metadataCategory : String

/-- The rare shared tokens R of the kernel: intersection tokens longer than
3 characters and not in the common-words list. -/
def rareSharedTokens (g1 g2 : GrievanceK) : Finset String :=
  ((tokenSetOf g1.processedText) ∩ (tokenSetOf g2.processedText)).filter
    (fun w => 3 < w.length ∧ ¬ commonWords.contains w)

/-- The location tokens L ⊆ R of the kernel. -/
def locationTokens (g1 g2 : GrievanceK) : Finset String :=
  (rareSharedTokens g1 g2).filter (fun w => isLocationToken w)

/-- The category modifier of the kernel (lines 461-472): +0.10 for equal
non-OTHER categories, −0.25 for different non-OTHER categories, else 0. -/
def categoryModifierOf (g1 g2 : GrievanceK) : ℚ :=
  let cat1 := if g1.category = "" then "OTHER" else g1.category
  let cat2 := if g2.category ≠ "" then g2.category
              else if g2.metadataCategory ≠ "" then g2.metadataCategory
              else "OTHER"
  if cat1 ≠ "OTHER" ∧ cat2 ≠ "OTHER" then
    (if cat1 = cat2 then 10/100 else -(25/100))
  else 0

/-- `computeContextualSimilarity` (batchProcessor.js lines 420-512): the
combined score.  (The source also returns a breakdown record of the same
quantities rounded to 3 decimals, which no claim consumes.) -/
noncomputable def computeContextualSimilarity
    (grievance1 grievance2 : GrievanceK) (thresholds : Thresholds) : ℝ :=
  let cosineScore := cosineSimRaw grievance1.embedding grievance2.embedding
  let words1 := tokenSetOf grievance1.processedText
  let words2 := tokenSetOf grievance2.processedText
  let inter := words1 ∩ words2
  let unionSet := words1 ∪ words2
  let jaccardScore : ℚ := if unionSet.card = 0 then 0 else (inter.card : ℚ) / unionSet.card
  let ngramScore : ℚ :=
    calculateNGramOverlap grievance1.processedText grievance2.processedText 2
  let rareBoost : ℚ := min (8/100) ((rareSharedTokens grievance1 grievance2).card * (2/100))
  let locationBoost : ℚ := min (6/100) ((locationTokens grievance1 grievance2).card * (3/100))
  let categoryModifier := categoryModifierOf grievance1 grievance2
  let baseScore := calculateAdaptiveWeightedScore cosineScore jaccardScore ngramScore 0 thresholds
  let finalScore := baseScore + (rareBoost : ℝ) + (locationBoost : ℝ) + (categoryModifier : ℝ)
  max 0 (min 1 finalScore)

/-! ## DBSCAN cluster upgrade pass (src/nlp/dbscan.js, applyDBSCANClustering)
and persistence (src/batch/batchProcessor.js, saveGrievancesToDB). -/

/-- The matched-grievance reference a grievance can carry: a real database
id from the historical pool, or the synthetic within-batch string
`batch_<i>`. -/
inductive MatchId where
  | dbId (n : ℤ)
  | batchRef (i : ℕ)
deriving DecidableEq, Repr

/-- A batch grievance at the point the DBSCAN pass runs: its page number,
its status after the global pass, the match reference the global pass
recorded (persisted later as `matched_grievance_id`), and the in-memory
cluster linkage fields the DBSCAN upgrade writes. -/
structure GItem where
  pageNumber : ℕ
  finalStatus : Status
  globalMatchId : Option MatchId
  clusteredWith : Option ℕ
  clusterBasedMatch : Bool
deriving DecidableEq, Repr

/-- Page-number key used by the cluster sort (`grievances[a].pageNumber || 0`). -/
def pageOf (gs : List GItem) (i : ℕ) : ℕ :=
  match gs[i]? with
  | some g => g.pageNumber
  | none => 0

/-- Insertion of an index into a page-sorted index list (modelling the
comparator sort `(a, b) => page(a) - page(b)`). -/
def insertByPage (gs : List GItem) (i : ℕ) : List ℕ → List ℕ
  | [] => [i]
  | j :: rest =>
    if pageOf gs i ≤ pageOf gs j then i :: j :: rest
    else j :: insertByPage gs i rest

/-- Comparator sort of a cluster by page number (JS `Array.prototype.sort`
with a numeric comparator; any page-sorted arrangement satisfies the
claims). -/
def sortByPage (gs : List GItem) : List ℕ → List ℕ
  | [] => []
  | i :: rest => insertByPage gs i (sortByPage gs rest)

/-- The field writes of the cluster upgrade (dbscan.js lines 191-193):
status to NEAR_DUPLICATE, in-memory linkage to the primary index. -/
def upgraded (primaryIdx : ℕ) (g : GItem) : GItem :=
  { g with finalStatus := .NEAR_DUPLICATE
           clusteredWith := some primaryIdx
           clusterBasedMatch := true }

/-- The upgrade applied to one non-primary cluster member (dbscan.js lines
185-196): a member still `UNIQUE` becomes `NEAR_DUPLICATE` linked in memory
to the primary index; others are untouched. -/
def upgradeAt (primaryIdx : ℕ) (gs : List GItem) (dupIdx : ℕ) : List GItem :=
  match gs[dupIdx]? with
  | some g =>
    if g.finalStatus = .UNIQUE then gs.set dupIdx (upgraded primaryIdx g)
    else gs
  | none => gs

/-- The per-cluster body of `applyDBSCANClustering` (lines 176-198): sort
the cluster by page number, take the earliest as primary, upgrade the
remaining members. -/
def applyClusterUpgrade (gs : List GItem) (cluster : List ℕ) : List GItem :=
  if 2 ≤ cluster.length then
    let sorted := sortByPage gs cluster
    let primaryIdx := sorted.headD 0
    sorted.tail.foldl (upgradeAt primaryIdx) gs
  else gs

/-- `applyDBSCANClustering` restricted to the status-upgrade pass: fold the
upgrade over the clusters DBSCAN produced.  (The `clusterId`/`clusterSize`
bookkeeping the source also writes is not read by any later stage.) -/
def applyDBSCANClustering (gs : List GItem) (clusters : List (List ℕ)) : List GItem :=
  clusters.foldl applyClusterUpgrade gs

/-- The `matched_grievance_id` column value written by `saveGrievancesToDB`
(batchProcessor.js line 613): `g.globalMatchId || null` — the DBSCAN
linkage fields are never persisted. -/
def persistedMatchedId (g : GItem) : Option MatchId := g.globalMatchId

/-! ## Cluster materialisation (src/batch/batchProcessor.js, formDuplicateClusters) -/

/-- One element of `savedResults` as `formDuplicateClusters` consumes it. -/
structure SavedResult where
  id : ℤ
  status : Status
  matchedId : Option MatchId
  score : ℚ
deriving DecidableEq, Repr

/-- A `duplicate_clusters` row together with its member list as built by
`formDuplicateClusters` (members and scores in push order). -/
structure DupCluster where
  clusterType : Status
  primaryId : ℤ
  members : List ℤ
  scores : List ℚ
deriving DecidableEq, Repr

/-- The grouping key of `formDuplicateClusters` (lines 651-666): only
DUPLICATE/NEAR_DUPLICATE rows participate; a `batch_*` reference is skipped
outright; otherwise `matchedId || r.id` (a zero id is falsy in JS). -/
def keyOf (r : SavedResult) : Option ℤ :=
  if r.status = .DUPLICATE ∨ r.status = .NEAR_DUPLICATE then
    match r.matchedId with
    | some (.batchRef _) => none
    | some (.dbId m) => some (if m = 0 then r.id else m)
    | none => some r.id
  else none

/-- Add one result to the association list of clusters keyed by primary id
(creation on first touch, then push of member id and score). -/
def addToClusters (acc : List (ℤ × DupCluster)) (r : SavedResult) : List (ℤ × DupCluster) :=
  match keyOf r with
  | none => acc
  | some k =>
    match acc.lookup k with
    | some _ =>
      acc.map (fun p =>
        if p.1 = k then
          (k, { p.2 with members := p.2.members ++ [r.id], scores := p.2.scores ++ [r.score] })
        else p)
    | none =>
      acc ++ [(k, { clusterType := r.status, primaryId := k,
                    members := [r.id], scores := [r.score] })]

/-- `formDuplicateClusters` (batchProcessor.js lines 647-714) restricted to
the clusters it persists: groups are built by folding over the results;
each group with a nonempty member list becomes a cluster row.  (Object keys
are numbers here, so the `parseInt` validity check always passes.) -/
def formDuplicateClusters (results : List SavedResult) : List DupCluster :=
  ((results.foldl addToClusters []).map (fun p => p.2)).filter
    (fun c => ¬ c.members.isEmpty)

/-! ## Lemmas and claim theorems: adaptive threshold store -/

/-- The last override a row list carries for a given kind, if any. -/
def lastOverride (rows : List ThresholdRowRead) (k : ThresholdKind) : Option ℚ :=
  (rows.filterMap (fun r => if r.1 = k then some r.2 else none)).getLast?

lemma getLastD_cons (a d : ℚ) (l : List ℚ) :
    ((a :: l).getLast?).getD d = (l.getLast?).getD a := by
  cases l with
  | nil => rfl
  | cons b m =>
    rw [List.getLast?_cons_cons]
    have h : (b :: m).getLast?.isSome := by
      rw [List.getLast?_isSome]
      simp
    obtain ⟨x, hx⟩ := Option.isSome_iff_exists.mp h
    simp [hx]

lemma kindVal_setKind (t : Thresholds) (k k' : ThresholdKind) (v : ℚ) :
    (t.setKind k v).kindVal k' = if k' = k then v else t.kindVal k' := by
  cases k <;> cases k' <;> simp [Thresholds.setKind, Thresholds.kindVal]

lemma foldl_setKind_kindVal :
    ∀ (rows : List ThresholdRowRead) (t : Thresholds) (k : ThresholdKind),
      ((rows.foldl (fun t r => t.setKind r.1 r.2) t).kindVal k)
        = (lastOverride rows k).getD (t.kindVal k)
  | [], t, k => by simp [lastOverride]
  | r :: rest, t, k => by
    have ih := foldl_setKind_kindVal rest (t.setKind r.1 r.2) k
    rw [List.foldl_cons, ih]
    by_cases h : r.1 = k
    · have hfm : lastOverride (r :: rest) k
          = ((r.2 :: rest.filterMap (fun r => if r.1 = k then some r.2 else none)).getLast?) := by
        simp [lastOverride, List.filterMap_cons, h]
      rw [hfm, getLastD_cons, kindVal_setKind, if_pos h.symm]
      rfl
    · have hfm : lastOverride (r :: rest) k = lastOverride rest k := by
        simp [lastOverride, List.filterMap_cons, h]
      rw [hfm, kindVal_setKind, if_neg (fun hk => h hk.symm)]

/-- C2: the read path of the threshold store.  An EMPTY store yields the
documented defaults (duplicate 0.60, near_duplicate 0.60, weights
0.55/0.25/0.15/0.05); a FAILED read yields the catch-branch map, whose
duplicate and near_duplicate values are 0.50, not 0.60; present rows
override exactly their own kind, the last row winning. -/
theorem c2_threshold_read_defaults :
    getAdaptiveThresholds (Except.ok []) = defaultThresholds
    ∧ defaultThresholds
        = { duplicate := 60/100, near_duplicate := 60/100, cosine_weight := 55/100,
            jaccard_weight := 25/100, ngram_weight := 15/100, metadata_weight := 5/100 }
    ∧ (∀ e : Unit, getAdaptiveThresholds (Except.error e) = catchThresholds)
    ∧ catchThresholds
        = { duplicate := 50/100, near_duplicate := 50/100, cosine_weight := 55/100,
            jaccard_weight := 25/100, ngram_weight := 15/100, metadata_weight := 5/100 }
    ∧ (∀ (rows : List ThresholdRowRead) (k : ThresholdKind),
        (getAdaptiveThresholds (Except.ok rows)).kindVal k
          = (lastOverride rows k).getD (defaultThresholds.kindVal k)) := by
  refine ⟨rfl, rfl, fun _ => rfl, rfl, fun rows k => ?_⟩
  exact foldl_setKind_kindVal rows defaultThresholds k

/-- C2 counterexample: when the store read fails, the returned map does NOT
equal the documented defaults — the duplicate threshold comes back 0.50
instead of 0.60. -/
theorem c2_read_failure_not_defaults :
    (getAdaptiveThresholds (Except.error ())).duplicate = 50/100
    ∧ (getAdaptiveThresholds (Except.error ())).duplicate ≠ 60/100
    ∧ getAdaptiveThresholds (Except.error ()) ≠ defaultThresholds := by
  refine ⟨rfl, by norm_num [getAdaptiveThresholds, catchThresholds], ?_⟩
  intro h
  have := congrArg Thresholds.duplicate h
  norm_num [getAdaptiveThresholds, catchThresholds, defaultThresholds] at this

/-- C10: when `near_duplicate = duplicate` (as in both built-in default
maps), the classifier can only answer DUPLICATE (score at or above the
duplicate threshold) or UNIQUE; the NEAR_DUPLICATE branch is unreachable. -/
theorem c10_near_duplicate_unreachable (s : ℚ) (th : Thresholds)
    (h : th.near_duplicate = th.duplicate) :
    classifyWithAdaptiveThresholds s th ≠ Status.NEAR_DUPLICATE
    ∧ classifyWithAdaptiveThresholds s th
        = (if th.duplicate ≤ s then Status.DUPLICATE else Status.UNIQUE) := by
  unfold classifyWithAdaptiveThresholds
  rw [h]
  by_cases h1 : th.duplicate ≤ s
  · simp [ge_iff_le, h1]
  · simp [ge_iff_le, h1]

/-- C10 witness: the built-in defaults have equal thresholds, and a score of
0.7 classifies as DUPLICATE, never NEAR_DUPLICATE. -/
theorem c10_witness :
    defaultThresholds.near_duplicate = defaultThresholds.duplicate
    ∧ (classifyWithAdaptiveThresholds (7/10) defaultThresholds ≠ Status.NEAR_DUPLICATE
       ∧ classifyWithAdaptiveThresholds (7/10) defaultThresholds
           = (if defaultThresholds.duplicate ≤ 7/10 then Status.DUPLICATE else Status.UNIQUE)) :=
  ⟨rfl, c10_near_duplicate_unreachable (7/10) defaultThresholds rfl⟩

/-- A reachable store state for the ordering counterexample: both duplicate
and near_duplicate sit at 0.75 (the duplicate seed minimum, inside the
near_duplicate seed range [0.50, 0.80]); the remaining rows keep their
migration seed values. -/
def c3State : ThresholdState := fun k =>
  match k with
  | .duplicate => ⟨75/100, 75/100, 95/100⟩
  | .near_duplicate => ⟨75/100, 50/100, 80/100⟩
  | .cosine_weight => ⟨50/100, 30/100, 70/100⟩
  | .jaccard_weight => ⟨25/100, 10/100, 40/100⟩
  | .ngram_weight => ⟨15/100, 5/100, 30/100⟩
  | .metadata_weight => ⟨10/100, 0, 25/100⟩

/-- C3 counterexample: from a state satisfying `near_duplicate ≤ duplicate`
(both 0.75, within their per-kind bounds), one NEAR_DUPLICATE→UNIQUE
feedback raises near_duplicate to 0.80 — clamped only by its own maximum —
leaving `near_duplicate = 0.80 > duplicate = 0.75`. -/
theorem c3_ordering_violated :
    ((c3State ThresholdKind.near_duplicate).current
        ≤ (c3State ThresholdKind.duplicate).current)
    ∧ ((updateThresholdsFromFeedback c3State Status.NEAR_DUPLICATE Status.UNIQUE)
          ThresholdKind.near_duplicate).current = 80/100
    ∧ ¬ (((updateThresholdsFromFeedback c3State Status.NEAR_DUPLICATE Status.UNIQUE)
            ThresholdKind.near_duplicate).current
         ≤ ((updateThresholdsFromFeedback c3State Status.NEAR_DUPLICATE Status.UNIQUE)
            ThresholdKind.duplicate).current) := by
  refine ⟨by norm_num [c3State], ?_, ?_⟩
  · show max (effMin (c3State ThresholdKind.near_duplicate))
        (min (effMax (c3State ThresholdKind.near_duplicate))
          ((c3State ThresholdKind.near_duplicate).current + LEARNING_RATE)) = 80/100
    norm_num [c3State, effMin, effMax, LEARNING_RATE]
  · show ¬ (max (effMin (c3State ThresholdKind.near_duplicate))
        (min (effMax (c3State ThresholdKind.near_duplicate))
          ((c3State ThresholdKind.near_duplicate).current + LEARNING_RATE))
        ≤ (c3State ThresholdKind.duplicate).current)
    norm_num [c3State, effMin, effMax, LEARNING_RATE]

/-- C3 amended: every feedback update leaves min/max untouched and either
keeps a row's current value or, when that kind's effective bounds are
ordered, clamps the adjusted value into that kind's effective [min, max]
interval; no cross-kind ordering between near_duplicate and duplicate is
enforced.  Only the adjusted kind's own bounds matter — the seeded
metadata_weight row (min 0.00, remapped by the falsy-zero fallback to an
effective 0.3 > 0.25) is never adjusted by a feedback transition. -/
theorem c3_update_clamps_per_kind (st : ThresholdState) (o c : Status) (k : ThresholdKind)
    (hbounds : effMin (st k) ≤ effMax (st k)) :
    ((updateThresholdsFromFeedback st o c k).min_value = (st k).min_value
     ∧ (updateThresholdsFromFeedback st o c k).max_value = (st k).max_value)
    ∧ ((effMin (st k) ≤ (updateThresholdsFromFeedback st o c k).current
        ∧ (updateThresholdsFromFeedback st o c k).current ≤ effMax (st k))
       ∨ (updateThresholdsFromFeedback st o c k).current = (st k).current) := by
  unfold updateThresholdsFromFeedback
  cases hadj : adjustmentFor o c with
  | none => exact ⟨⟨rfl, rfl⟩, Or.inr rfl⟩
  | some ka =>
    obtain ⟨k0, adj⟩ := ka
    by_cases hk : k = k0
    · subst hk
      simp only [if_pos rfl]
      exact ⟨⟨trivial, trivial⟩,
        Or.inl ⟨le_max_left _ _, max_le hbounds (min_le_left _ _)⟩⟩
    · simp only [if_neg hk]
      exact ⟨⟨trivial, trivial⟩, Or.inr trivial⟩

/-- The adaptive_thresholds rows exactly as seeded by
schema_migration_v2.sql (including the metadata_weight row with its
literal 0.00 minimum). -/
def seedThresholdState : ThresholdState := fun k =>
  match k with
  | .duplicate => ⟨85/100, 75/100, 95/100⟩
  | .near_duplicate => ⟨65/100, 50/100, 80/100⟩
  | .cosine_weight => ⟨50/100, 30/100, 70/100⟩
  | .jaccard_weight => ⟨25/100, 10/100, 40/100⟩
  | .ngram_weight => ⟨15/100, 5/100, 30/100⟩
  | .metadata_weight => ⟨10/100, 0, 25/100⟩

/-- C3 witness: the clamping theorem applied to the exact migration-seeded
store for a UNIQUE→DUPLICATE event on the duplicate row, whose effective
bounds [0.75, 0.95] are ordered. -/
theorem c3_update_clamps_witness :
    (effMin (seedThresholdState ThresholdKind.duplicate)
      ≤ effMax (seedThresholdState ThresholdKind.duplicate))
    ∧ (((updateThresholdsFromFeedback seedThresholdState Status.UNIQUE Status.DUPLICATE
          ThresholdKind.duplicate).min_value
            = (seedThresholdState ThresholdKind.duplicate).min_value
        ∧ (updateThresholdsFromFeedback seedThresholdState Status.UNIQUE Status.DUPLICATE
            ThresholdKind.duplicate).max_value
              = (seedThresholdState ThresholdKind.duplicate).max_value)
       ∧ ((effMin (seedThresholdState ThresholdKind.duplicate)
            ≤ (updateThresholdsFromFeedback seedThresholdState Status.UNIQUE Status.DUPLICATE
                ThresholdKind.duplicate).current
           ∧ (updateThresholdsFromFeedback seedThresholdState Status.UNIQUE Status.DUPLICATE
                ThresholdKind.duplicate).current
                  ≤ effMax (seedThresholdState ThresholdKind.duplicate))
          ∨ (updateThresholdsFromFeedback seedThresholdState Status.UNIQUE Status.DUPLICATE
              ThresholdKind.duplicate).current
                = (seedThresholdState ThresholdKind.duplicate).current)) := by
  have hb : effMin (seedThresholdState ThresholdKind.duplicate)
      ≤ effMax (seedThresholdState ThresholdKind.duplicate) := by
    norm_num [seedThresholdState, effMin, effMax]
  exact ⟨hb, c3_update_clamps_per_kind seedThresholdState Status.UNIQUE Status.DUPLICATE
    ThresholdKind.duplicate hb⟩

/-- A store state with all effective bounds ordered, used by the feedback
convergence witness: the migration seed values except that the
metadata_weight minimum is 0.01 instead of the falsy 0.00. -/
def c3StateW : ThresholdState := fun k =>
  match k with
  | .duplicate => ⟨85/100, 75/100, 95/100⟩
  | .near_duplicate => ⟨65/100, 50/100, 80/100⟩
  | .cosine_weight => ⟨50/100, 30/100, 70/100⟩
  | .jaccard_weight => ⟨25/100, 10/100, 40/100⟩
  | .ngram_weight => ⟨15/100, 5/100, 30/100⟩
  | .metadata_weight => ⟨10/100, 1/100, 25/100⟩

/-- The duplicate-threshold value after `n` UNIQUE→DUPLICATE feedback
events. -/
def dupSeq (st : ThresholdState) (n : ℕ) : ℚ :=
  ((feedbackIter st Status.UNIQUE Status.DUPLICATE n) ThresholdKind.duplicate).current

lemma feedbackIter_dup_row (st : ThresholdState)
    (hlo : effMin (st ThresholdKind.duplicate) ≤ (st ThresholdKind.duplicate).current)
    (hhi : (st ThresholdKind.duplicate).current ≤ effMax (st ThresholdKind.duplicate)) :
    ∀ n : ℕ,
      (feedbackIter st Status.UNIQUE Status.DUPLICATE n) ThresholdKind.duplicate
        = ⟨max (effMin (st ThresholdKind.duplicate))
              ((st ThresholdKind.duplicate).current - n * LEARNING_RATE),
            (st ThresholdKind.duplicate).min_value,
            (st ThresholdKind.duplicate).max_value⟩ := by
  intro n
  induction n with
  | zero =>
    simp only [feedbackIter, Nat.cast_zero, zero_mul, sub_zero]
    rw [max_eq_right hlo]
  | succ n ih =>
    have hmM : effMin (st ThresholdKind.duplicate) ≤ effMax (st ThresholdKind.duplicate) :=
      le_trans hlo hhi
    show updateThresholdsFromFeedback
        (feedbackIter st Status.UNIQUE Status.DUPLICATE n) Status.UNIQUE Status.DUPLICATE
        ThresholdKind.duplicate = _
    rw [show updateThresholdsFromFeedback
        (feedbackIter st Status.UNIQUE Status.DUPLICATE n) Status.UNIQUE Status.DUPLICATE
        ThresholdKind.duplicate
      = ⟨max (effMin ((feedbackIter st Status.UNIQUE Status.DUPLICATE n)
              ThresholdKind.duplicate))
            (min (effMax ((feedbackIter st Status.UNIQUE Status.DUPLICATE n)
                ThresholdKind.duplicate))
              (((feedbackIter st Status.UNIQUE Status.DUPLICATE n)
                  ThresholdKind.duplicate).current + -LEARNING_RATE)),
          ((feedbackIter st Status.UNIQUE Status.DUPLICATE n)
              ThresholdKind.duplicate).min_value,
          ((feedbackIter st Status.UNIQUE Status.DUPLICATE n)
              ThresholdKind.duplicate).max_value⟩ from rfl]
    rw [ih]
    have heMin : effMin (⟨max (effMin (st ThresholdKind.duplicate))
              ((st ThresholdKind.duplicate).current - n * LEARNING_RATE),
            (st ThresholdKind.duplicate).min_value,
            (st ThresholdKind.duplicate).max_value⟩ : ThresholdRow)
        = effMin (st ThresholdKind.duplicate) := rfl
    have heMax : effMax (⟨max (effMin (st ThresholdKind.duplicate))
              ((st ThresholdKind.duplicate).current - n * LEARNING_RATE),
            (st ThresholdKind.duplicate).min_value,
            (st ThresholdKind.duplicate).max_value⟩ : ThresholdRow)
        = effMax (st ThresholdKind.duplicate) := rfl
    simp only [heMin, heMax]
    have hcM : max (effMin (st ThresholdKind.duplicate))
        ((st ThresholdKind.duplicate).current - n * LEARNING_RATE)
        ≤ effMax (st ThresholdKind.duplicate) := by
      apply max_le hmM
      have h0 : (0 : ℚ) ≤ (n : ℚ) * LEARNING_RATE := by
        have h00 : (0 : ℚ) ≤ (n : ℚ) := Nat.cast_nonneg n
        have hL : (0 : ℚ) ≤ LEARNING_RATE := by norm_num [LEARNING_RATE]
        exact mul_nonneg h00 hL
      have h01 : (st ThresholdKind.duplicate).current - (n : ℚ) * LEARNING_RATE
          ≤ (st ThresholdKind.duplicate).current := by linarith
      exact le_trans h01 hhi
    have hmin : min (effMax (st ThresholdKind.duplicate))
        (max (effMin (st ThresholdKind.duplicate))
          ((st ThresholdKind.duplicate).current - n * LEARNING_RATE) + -LEARNING_RATE)
        = max (effMin (st ThresholdKind.duplicate))
            ((st ThresholdKind.duplicate).current - n * LEARNING_RATE) + -LEARNING_RATE := by
      apply min_eq_right
      have hL : (0 : ℚ) ≤ LEARNING_RATE := by norm_num [LEARNING_RATE]
      linarith [hcM]
    rw [hmin]
    have hstep : max (effMin (st ThresholdKind.duplicate))
        (max (effMin (st ThresholdKind.duplicate))
          ((st ThresholdKind.duplicate).current - n * LEARNING_RATE) + -LEARNING_RATE)
        = max (effMin (st ThresholdKind.duplicate))
            ((st ThresholdKind.duplicate).current - (n + 1 : ℕ) * LEARNING_RATE) := by
      have h1 : max (effMin (st ThresholdKind.duplicate))
          ((st ThresholdKind.duplicate).current - n * LEARNING_RATE) + -LEARNING_RATE
          = max (effMin (st ThresholdKind.duplicate) - LEARNING_RATE)
              ((st ThresholdKind.duplicate).current - n * LEARNING_RATE - LEARNING_RATE) := by
        rw [← sub_eq_add_neg, ← max_sub_sub_right]
      rw [h1, ← max_assoc]
      have h2 : max (effMin (st ThresholdKind.duplicate))
          (effMin (st ThresholdKind.duplicate) - LEARNING_RATE)
          = effMin (st ThresholdKind.duplicate) := by
        apply max_eq_left
        norm_num [LEARNING_RATE]
      rw [h2]
      have h3 : (st ThresholdKind.duplicate).current - (n : ℚ) * LEARNING_RATE - LEARNING_RATE
          = (st ThresholdKind.duplicate).current - ((n + 1 : ℕ) : ℚ) * LEARNING_RATE := by
        push_cast
        ring
      rw [h3]
    rw [hstep]

/-- C7: starting from any stored duplicate row satisfying the data-model
bounds invariant, repeated UNIQUE→DUPLICATE feedback makes the duplicate
threshold non-increasing, equal to `max min_eff (v0 − n·0.05)` after `n`
events, never below the effective minimum, and decreasing by exactly the
learning rate 0.05 on every step that stays at or above the minimum. -/
theorem c7_feedback_convergence (st : ThresholdState)
    (hlo : effMin (st ThresholdKind.duplicate) ≤ (st ThresholdKind.duplicate).current)
    (hhi : (st ThresholdKind.duplicate).current ≤ effMax (st ThresholdKind.duplicate)) :
    ∀ n : ℕ,
      dupSeq st (n + 1) ≤ dupSeq st n
      ∧ effMin (st ThresholdKind.duplicate) ≤ dupSeq st n
      ∧ dupSeq st n = max (effMin (st ThresholdKind.duplicate))
          ((st ThresholdKind.duplicate).current - n * LEARNING_RATE)
      ∧ (effMin (st ThresholdKind.duplicate) ≤ dupSeq st n - LEARNING_RATE →
          dupSeq st (n + 1) = dupSeq st n - LEARNING_RATE) := by
  intro n
  have hrow := feedbackIter_dup_row st hlo hhi
  have hcf : ∀ m : ℕ, dupSeq st m = max (effMin (st ThresholdKind.duplicate))
      ((st ThresholdKind.duplicate).current - m * LEARNING_RATE) := by
    intro m
    unfold dupSeq
    rw [hrow m]
  have hL : (0 : ℚ) < LEARNING_RATE := by norm_num [LEARNING_RATE]
  refine ⟨?_, ?_, hcf n, ?_⟩
  · rw [hcf n, hcf (n + 1)]
    apply max_le_max (le_refl _)
    push_cast
    linarith
  · rw [hcf n]
    exact le_max_left _ _
  · intro h
    rw [hcf n] at h ⊢
    rw [hcf (n + 1)]
    have h1 : max (effMin (st ThresholdKind.duplicate))
        ((st ThresholdKind.duplicate).current - n * LEARNING_RATE) - LEARNING_RATE
        = max (effMin (st ThresholdKind.duplicate) - LEARNING_RATE)
            ((st ThresholdKind.duplicate).current - n * LEARNING_RATE - LEARNING_RATE) := by
      rw [max_sub_sub_right]
    have h3 : effMin (st ThresholdKind.duplicate)
        ≤ (st ThresholdKind.duplicate).current - (n : ℚ) * LEARNING_RATE - LEARNING_RATE := by
      rcases le_max_iff.mp (h1 ▸ h) with h4 | h4
      · linarith
      · exact h4
    have h5 : max (effMin (st ThresholdKind.duplicate))
        ((st ThresholdKind.duplicate).current - ((n + 1 : ℕ) : ℚ) * LEARNING_RATE)
        = (st ThresholdKind.duplicate).current - ((n + 1 : ℕ) : ℚ) * LEARNING_RATE := by
      apply max_eq_right
      push_cast
      push_cast at h3
      linarith
    rw [h5, h1]
    have h6 : max (effMin (st ThresholdKind.duplicate) - LEARNING_RATE)
        ((st ThresholdKind.duplicate).current - (n : ℚ) * LEARNING_RATE - LEARNING_RATE)
        = (st ThresholdKind.duplicate).current - (n : ℚ) * LEARNING_RATE - LEARNING_RATE := by
      apply max_eq_right
      linarith
    rw [h6]
    push_cast
    ring

/-- C7 witness: the convergence theorem at the migration-seeded duplicate
row (0.85, bounds [0.75, 0.95]). -/
theorem c7_feedback_convergence_witness :
    (effMin (c3StateW ThresholdKind.duplicate) ≤ (c3StateW ThresholdKind.duplicate).current)
    ∧ ((c3StateW ThresholdKind.duplicate).current ≤ effMax (c3StateW ThresholdKind.duplicate))
    ∧ (∀ n : ℕ,
        dupSeq c3StateW (n + 1) ≤ dupSeq c3StateW n
        ∧ effMin (c3StateW ThresholdKind.duplicate) ≤ dupSeq c3StateW n
        ∧ dupSeq c3StateW n = max (effMin (c3StateW ThresholdKind.duplicate))
            ((c3StateW ThresholdKind.duplicate).current - n * LEARNING_RATE)
        ∧ (effMin (c3StateW ThresholdKind.duplicate) ≤ dupSeq c3StateW n - LEARNING_RATE →
            dupSeq c3StateW (n + 1) = dupSeq c3StateW n - LEARNING_RATE)) := by
  have h1 : effMin (c3StateW ThresholdKind.duplicate)
      ≤ (c3StateW ThresholdKind.duplicate).current := by
    norm_num [c3StateW, effMin]
  have h2 : (c3StateW ThresholdKind.duplicate).current
      ≤ effMax (c3StateW ThresholdKind.duplicate) := by
    norm_num [c3StateW, effMax]
  exact ⟨h1, h2, c7_feedback_convergence c3StateW h1 h2⟩

/-- C8: idempotence of the normalization pipeline FAILS on the code.  The
word "cans" lemmatizes to "can", which is in the stop-word list, so a
second pass removes it: `preprocessText (preprocessText "cans")` is the
empty string while `preprocessText "cans"` is `"can"`.  Lemmatization can
emit stop-words (and single-character tokens), which the stop-word filter
of a repeated run deletes. -/
theorem c8_preprocess_not_idempotent :
    preprocessText "cans" = "can"
    ∧ preprocessText "can" = ""
    ∧ preprocessText (preprocessText "cans") ≠ preprocessText "cans" := by
  exact ⟨rfl, rfl, by decide⟩

/-- C1: error handling of embedding acquisition.  The BATCH path conforms:
when the custom server fails (or is absent) and all three HuggingFace
attempts fail, `generateBatchEmbeddings` throws the unavailability error
and never substitutes a vector.  The SINGLE-TEXT path used by the text
grievance submission handler does NOT conform: on any failed fetch,
non-2xx response, or non-array body, `generateEmbedding` silently returns
the locally generated synthetic hash vector `generateFallbackEmbedding`
instead of signalling an error — contradicting the embedding module's own
stated policy against fallback hash embeddings. -/
theorem c1_embedding_failure_paths :
    (∀ text : String,
      generateEmbedding (FetchResult.httpErr) text = generateFallbackEmbedding text)
    ∧ (∀ text : String,
      generateEmbedding (FetchResult.netErr) text = generateFallbackEmbedding text)
    ∧ (∀ text : String,
      generateEmbedding (FetchResult.ok SingleBody.nonArr) text
        = generateFallbackEmbedding text)
    ∧ generateBatchEmbeddings ["water supply problem"] none
        FetchResult.httpErr FetchResult.httpErr FetchResult.httpErr
        = Except.error "Failed to generate embeddings - check API token"
    ∧ generateBatchEmbeddings ["water supply problem"] (some FetchResult.netErr)
        FetchResult.netErr FetchResult.httpErr (FetchResult.ok BatchBody.other)
        = Except.error "Failed to generate embeddings - check API token" :=
  ⟨fun _ => rfl, fun _ => rfl, fun _ => rfl, rfl, rfl⟩

/-! ## Lemmas and claim theorems: cosine similarity -/

lemma dotList_eq_sum : ∀ (v w : List ℝ),
    dotList v w = ∑ i ∈ Finset.range (min v.length w.length), v.getD i 0 * w.getD i 0
  | [], w => by simp [dotList]
  | a :: v, [] => by simp [dotList]
  | a :: v, b :: w => by
    have ih := dotList_eq_sum v w
    have h1 : dotList (a :: v) (b :: w) = a * b + dotList v w := by
      simp [dotList]
    rw [h1, ih, List.length_cons, List.length_cons,
      show min (v.length + 1) (w.length + 1) = min v.length w.length + 1 from by omega,
      Finset.sum_range_succ']
    simp only [List.getD_cons_succ, List.getD_cons_zero]
    ring

lemma sumSq_eq (v : List ℝ) :
    sumSq v = ∑ i ∈ Finset.range v.length, v.getD i 0 ^ 2 := by
  unfold sumSq
  rw [dotList_eq_sum, min_self]
  exact Finset.sum_congr rfl (fun i _ => (sq (v.getD i 0)).symm ▸ by ring)

lemma sumSq_nonneg (v : List ℝ) : 0 ≤ sumSq v := by
  rw [sumSq_eq]
  exact Finset.sum_nonneg (fun i _ => sq_nonneg _)

lemma sumSq_pos : ∀ (v : List ℝ), (∃ x ∈ v, x ≠ 0) → 0 < sumSq v
  | [], h => by simp at h
  | a :: v, h => by
    have hca : sumSq (a :: v) = a * a + sumSq v := by simp [sumSq, dotList]
    rw [hca]
    rcases h with ⟨x, hx, hx0⟩
    rcases List.mem_cons.mp hx with rfl | hxv
    · have h1 : 0 < x * x := mul_self_pos.mpr hx0
      have h2 := sumSq_nonneg v
      linarith
    · have h1 := sumSq_pos v ⟨x, hxv, hx0⟩
      have h2 : 0 ≤ a * a := mul_self_nonneg a
      linarith

lemma abs_dot_le (v w : List ℝ) (h : v.length = w.length) :
    |dotList v w| ≤ Real.sqrt (sumSq v) * Real.sqrt (sumSq w) := by
  rw [abs_le]
  constructor
  · have key := Real.sum_mul_le_sqrt_mul_sqrt (Finset.range w.length)
      (fun i => -(v.getD i 0)) (fun i => w.getD i 0)
    have h1 : ∑ i ∈ Finset.range w.length, (-(v.getD i 0)) * w.getD i 0 = -dotList v w := by
      rw [dotList_eq_sum, h, min_self, ← Finset.sum_neg_distrib]
      exact Finset.sum_congr rfl (fun i _ => by ring)
    have h2 : ∑ i ∈ Finset.range w.length, (-(v.getD i 0)) ^ 2 = sumSq v := by
      rw [sumSq_eq, h]
      exact Finset.sum_congr rfl (fun i _ => by ring)
    have h3 : ∑ i ∈ Finset.range w.length, (w.getD i 0) ^ 2 = sumSq w := by
      rw [sumSq_eq]
    rw [h1, h2, h3] at key
    linarith
  · have key := Real.sum_mul_le_sqrt_mul_sqrt (Finset.range w.length)
      (fun i => v.getD i 0) (fun i => w.getD i 0)
    have h1 : ∑ i ∈ Finset.range w.length, v.getD i 0 * w.getD i 0 = dotList v w := by
      rw [dotList_eq_sum, h, min_self]
    have h2 : ∑ i ∈ Finset.range w.length, (v.getD i 0) ^ 2 = sumSq v := by
      rw [sumSq_eq, h]
    have h3 : ∑ i ∈ Finset.range w.length, (w.getD i 0) ^ 2 = sumSq w := by
      rw [sumSq_eq]
    rw [h1, h2, h3] at key
    exact key

lemma cosineSimRaw_mem (v w : List ℝ) (h : v.length = w.length) :
    -1 ≤ cosineSimRaw v w ∧ cosineSimRaw v w ≤ 1 := by
  unfold cosineSimRaw
  by_cases hz : Real.sqrt (sumSq v) = 0 ∨ Real.sqrt (sumSq w) = 0
  · rw [if_pos hz]
    norm_num
  · rw [if_neg hz]
    push_neg at hz
    obtain ⟨h1, h2⟩ := hz
    have hp1 : 0 < Real.sqrt (sumSq v) :=
      lt_of_le_of_ne (Real.sqrt_nonneg _) (Ne.symm h1)
    have hp2 : 0 < Real.sqrt (sumSq w) :=
      lt_of_le_of_ne (Real.sqrt_nonneg _) (Ne.symm h2)
    have hprod : 0 < Real.sqrt (sumSq v) * Real.sqrt (sumSq w) := mul_pos hp1 hp2
    have habs := abs_le.mp (abs_dot_le v w h)
    constructor
    · rw [le_div_iff₀ hprod]
      linarith [habs.1]
    · rw [div_le_one hprod]
      exact habs.2

lemma cosineSimRaw_self (v : List ℝ) (hv : ∃ x ∈ v, x ≠ 0) : cosineSimRaw v v = 1 := by
  have hpos := sumSq_pos v hv
  have hs : Real.sqrt (sumSq v) ≠ 0 := ne_of_gt (Real.sqrt_pos.mpr hpos)
  unfold cosineSimRaw
  rw [if_neg (by push_neg; exact ⟨hs, hs⟩)]
  show dotList v v / (Real.sqrt (sumSq v) * Real.sqrt (sumSq v)) = 1
  rw [Real.mul_self_sqrt (sumSq_nonneg v)]
  exact div_self (ne_of_gt hpos)

/-- C9: for two non-zero vectors of equal dimension the kernel cosine is an
`ok` value in [−1, 1]; the self-similarity of a non-zero vector is exactly
1; and the diagonal of the precomputed similarity matrix is pinned to 1. -/
theorem c9_cosine_range_self (v w : List ℝ) (hlen : v.length = w.length)
    (hv : ∃ x ∈ v, x ≠ 0) (hw : ∃ x ∈ w, x ≠ 0) :
    (∃ r : ℝ, cosineSimilarity v w = Except.ok r ∧ -1 ≤ r ∧ r ≤ 1)
    ∧ cosineSimilarity v v = Except.ok 1
    ∧ cosineSimilarity w w = Except.ok 1
    ∧ (∀ (embs : List (List ℝ)) (i : ℕ), computeSimilarityMatrix embs i i = 1) := by
  have hmem := cosineSimRaw_mem v w hlen
  refine ⟨⟨cosineSimRaw v w, ?_, hmem.1, hmem.2⟩, ?_, ?_, ?_⟩
  · unfold cosineSimilarity
    rw [if_neg (by simp [hlen])]
  · unfold cosineSimilarity
    rw [if_neg (by simp)]
    rw [cosineSimRaw_self v hv]
  · unfold cosineSimilarity
    rw [if_neg (by simp)]
    rw [cosineSimRaw_self w hw]
  · intro embs i
    simp [computeSimilarityMatrix]

/-- C9 witness: the range and self-similarity theorem at the concrete unit
vectors (1,0) and (0,1). -/
theorem c9_cosine_range_self_witness :
    ([(1 : ℝ), 0].length = [(0 : ℝ), 1].length)
    ∧ (∃ x ∈ [(1 : ℝ), 0], x ≠ 0)
    ∧ (∃ x ∈ [(0 : ℝ), 1], x ≠ 0)
    ∧ ((∃ r : ℝ, cosineSimilarity [(1 : ℝ), 0] [(0 : ℝ), 1] = Except.ok r ∧ -1 ≤ r ∧ r ≤ 1)
       ∧ cosineSimilarity [(1 : ℝ), 0] [(1 : ℝ), 0] = Except.ok 1
       ∧ cosineSimilarity [(0 : ℝ), 1] [(0 : ℝ), 1] = Except.ok 1
       ∧ (∀ (embs : List (List ℝ)) (i : ℕ), computeSimilarityMatrix embs i i = 1)) := by
  have hv : ∃ x ∈ [(1 : ℝ), 0], x ≠ 0 := ⟨1, by simp, one_ne_zero⟩
  have hw : ∃ x ∈ [(0 : ℝ), 1], x ≠ 0 := ⟨1, by simp, one_ne_zero⟩
  exact ⟨rfl, hv, hw, c9_cosine_range_self [(1 : ℝ), 0] [(0 : ℝ), 1] rfl hv hw⟩

/-- C6: the kernel composite equals the clamp to [0, 1] of the weighted base
score plus the rare-token boost `min(0.08, 0.02·|R|)`, the location-token
boost `min(0.06, 0.03·|L|)` and the category modifier; hence it always lies
in [0, 1]. -/
theorem c6_contextual_similarity_formula (g1 g2 : GrievanceK) (th : Thresholds) :
    computeContextualSimilarity g1 g2 th
      = max 0 (min 1
          (calculateAdaptiveWeightedScore
              (cosineSimRaw g1.embedding g2.embedding)
              ((if (tokenSetOf g1.processedText ∪ tokenSetOf g2.processedText).card = 0
                then (0 : ℚ)
                else ((tokenSetOf g1.processedText ∩ tokenSetOf g2.processedText).card : ℚ)
                  / (tokenSetOf g1.processedText ∪ tokenSetOf g2.processedText).card) : ℚ)
              ((calculateNGramOverlap g1.processedText g2.processedText 2 : ℚ))
              0 th
            + ((min (8/100) ((rareSharedTokens g1 g2).card * (2/100)) : ℚ) : ℝ)
            + ((min (6/100) ((locationTokens g1 g2).card * (3/100)) : ℚ) : ℝ)
            + ((categoryModifierOf g1 g2 : ℚ) : ℝ)))
    ∧ 0 ≤ computeContextualSimilarity g1 g2 th
    ∧ computeContextualSimilarity g1 g2 th ≤ 1 := by
  refine ⟨rfl, ?_, ?_⟩
  · exact le_max_left 0 _
  · exact max_le zero_le_one (min_le_left 1 _)

/-! ## Lemmas and claim theorems: DBSCAN upgrade pass -/

lemma mem_insertByPage (gs : List GItem) (i : ℕ) :
    ∀ (l : List ℕ) (j : ℕ), j ∈ insertByPage gs i l ↔ j = i ∨ j ∈ l
  | [], j => by simp [insertByPage]
  | k :: rest, j => by
    have ih := mem_insertByPage gs i rest j
    simp only [insertByPage]
    by_cases h : pageOf gs i ≤ pageOf gs k
    · rw [if_pos h]
      simp only [List.mem_cons]
    · rw [if_neg h]
      simp only [List.mem_cons, ih]
      tauto

lemma perm_insertByPage (gs : List GItem) (i : ℕ) :
    ∀ l : List ℕ, (insertByPage gs i l).Perm (i :: l)
  | [] => List.Perm.refl _
  | k :: rest => by
    simp only [insertByPage]
    by_cases h : pageOf gs i ≤ pageOf gs k
    · rw [if_pos h]
    · rw [if_neg h]
      exact ((perm_insertByPage gs i rest).cons k).trans (List.Perm.swap i k rest)

lemma perm_sortByPage (gs : List GItem) : ∀ l : List ℕ, (sortByPage gs l).Perm l
  | [] => List.Perm.refl _
  | i :: rest =>
    (perm_insertByPage gs i (sortByPage gs rest)).trans
      ((perm_sortByPage gs rest).cons i)

lemma sorted_insertByPage (gs : List GItem) (i : ℕ) :
    ∀ l : List ℕ, List.Sorted (fun a b => pageOf gs a ≤ pageOf gs b) l →
      List.Sorted (fun a b => pageOf gs a ≤ pageOf gs b) (insertByPage gs i l)
  | [], _ => by simp [insertByPage]
  | k :: rest, hs => by
    rcases List.sorted_cons.mp hs with ⟨hk, hrest⟩
    simp only [insertByPage]
    by_cases h : pageOf gs i ≤ pageOf gs k
    · rw [if_pos h]
      apply List.sorted_cons.mpr
      refine ⟨?_, hs⟩
      intro b hb
      rcases List.mem_cons.mp hb with rfl | hbr
      · exact h
      · exact le_trans h (hk b hbr)
    · rw [if_neg h]
      apply List.sorted_cons.mpr
      refine ⟨?_, sorted_insertByPage gs i rest hrest⟩
      intro b hb
      rcases (mem_insertByPage gs i rest b).mp hb with rfl | hbr
      · exact le_of_not_le h
      · exact hk b hbr

lemma sorted_sortByPage (gs : List GItem) :
    ∀ l : List ℕ, List.Sorted (fun a b => pageOf gs a ≤ pageOf gs b) (sortByPage gs l)
  | [] => by simp [sortByPage]
  | i :: rest => sorted_insertByPage gs i _ (sorted_sortByPage gs rest)

lemma upgradeAt_get_ne (p : ℕ) (gs : List GItem) (a j : ℕ) (h : j ≠ a) :
    (upgradeAt p gs a)[j]? = gs[j]? := by
  unfold upgradeAt
  cases hga : gs[a]? with
  | none => rfl
  | some g =>
    show (if g.finalStatus = Status.UNIQUE then gs.set a (upgraded p g) else gs)[j]?
      = gs[j]?
    by_cases hs : g.finalStatus = Status.UNIQUE
    · rw [if_pos hs]
      exact List.getElem?_set_ne (fun he => h he.symm)
    · rw [if_neg hs]

lemma upgradeAt_get_self (p : ℕ) (gs : List GItem) (a : ℕ) :
    (upgradeAt p gs a)[a]?
      = (gs[a]?).map (fun g => if g.finalStatus = Status.UNIQUE then upgraded p g else g) := by
  unfold upgradeAt
  cases hga : gs[a]? with
  | none => simp [hga]
  | some g =>
    show (if g.finalStatus = Status.UNIQUE then gs.set a (upgraded p g) else gs)[a]?
      = Option.map (fun g => if g.finalStatus = Status.UNIQUE then upgraded p g else g) (some g)
    by_cases hs : g.finalStatus = Status.UNIQUE
    · rw [if_pos hs]
      have ha : a < gs.length := by
        by_contra hlt
        rw [List.getElem?_eq_none (le_of_not_lt hlt)] at hga
        exact Option.noConfusion hga
      rw [List.getElem?_set_eq_of_lt _ ha]
      simp [hs]
    · rw [if_neg hs]
      simp [hga, hs]

lemma foldl_upgradeAt_get (p : ℕ) :
    ∀ (l : List ℕ) (gs : List GItem), l.Nodup → ∀ j : ℕ,
      (l.foldl (upgradeAt p) gs)[j]?
        = if j ∈ l
          then (gs[j]?).map (fun g => if g.finalStatus = Status.UNIQUE then upgraded p g else g)
          else gs[j]?
  | [], gs, _, j => by simp
  | a :: l, gs, hnd, j => by
    obtain ⟨hal, hl⟩ := List.nodup_cons.mp hnd
    have ih := foldl_upgradeAt_get p l (upgradeAt p gs a) hl j
    rw [List.foldl_cons, ih]
    by_cases hj : j ∈ l
    · rw [if_pos hj, if_pos (List.mem_cons.mpr (Or.inr hj))]
      have hja : j ≠ a := fun h => hal (h ▸ hj)
      rw [upgradeAt_get_ne p gs a j hja]
    · rw [if_neg hj]
      by_cases hje : j = a
      · subst hje
        rw [if_pos (List.mem_cons.mpr (Or.inl rfl))]
        exact upgradeAt_get_self p gs j
      · rw [if_neg (by simp [hje, hj]), upgradeAt_get_ne p gs a j hje]

/-- C4 amended: after the DBSCAN pass, for a cluster of at least 2 distinct
indices, the members are page-ordered, the earliest-page member is the
primary, every member whose status is still UNIQUE is upgraded to
NEAR_DUPLICATE with its IN-MEMORY `clusteredWith` field pointing at the
primary, DUPLICATE members are untouched — but the upgrade never changes
`globalMatchId`, the only field persisted as `matched_grievance_id`. -/
theorem c4_dbscan_upgrade (gs : List GItem) (cluster : List ℕ)
    (h2 : 2 ≤ cluster.length) (hnd : cluster.Nodup) :
    ((sortByPage gs cluster).Perm cluster)
    ∧ List.Sorted (fun a b => pageOf gs a ≤ pageOf gs b) (sortByPage gs cluster)
    ∧ ((sortByPage gs cluster).headD 0 ∈ cluster)
    ∧ (∀ i ∈ cluster, pageOf gs ((sortByPage gs cluster).headD 0) ≤ pageOf gs i)
    ∧ (∀ j ∈ (sortByPage gs cluster).tail,
        (applyClusterUpgrade gs cluster)[j]?
          = (gs[j]?).map (fun g => if g.finalStatus = Status.UNIQUE
              then upgraded ((sortByPage gs cluster).headD 0) g else g))
    ∧ (∀ j : ℕ, j ∉ (sortByPage gs cluster).tail →
        (applyClusterUpgrade gs cluster)[j]? = gs[j]?)
    ∧ (∀ (j : ℕ) (g : GItem), gs[j]? = some g → g.finalStatus = Status.DUPLICATE →
        (applyClusterUpgrade gs cluster)[j]? = some g)
    ∧ (∀ (j : ℕ) (g g2 : GItem), gs[j]? = some g →
        (applyClusterUpgrade gs cluster)[j]? = some g2 →
        persistedMatchedId g2 = persistedMatchedId g) := by
  have hperm := perm_sortByPage gs cluster
  have hsorted := sorted_sortByPage gs cluster
  have hne : sortByPage gs cluster ≠ [] := by
    intro h
    have hl := hperm.length_eq
    rw [h] at hl
    simp at hl
    omega
  obtain ⟨p, t, hpt⟩ : ∃ p t, sortByPage gs cluster = p :: t := by
    cases hh : sortByPage gs cluster with
    | nil => exact absurd hh hne
    | cons p t => exact ⟨p, t, rfl⟩
  have hhead : (sortByPage gs cluster).headD 0 = p := by rw [hpt]; rfl
  have hmem_head : p ∈ cluster := hperm.mem_iff.mp (hpt ▸ List.mem_cons_self p t)
  have hmin : ∀ i ∈ cluster, pageOf gs p ≤ pageOf gs i := by
    intro i hi
    have hi2 : i ∈ sortByPage gs cluster := hperm.mem_iff.mpr hi
    rw [hpt] at hi2
    rcases List.mem_cons.mp hi2 with rfl | hit
    · exact le_refl _
    · exact (List.sorted_cons.mp (hpt ▸ hsorted)).1 i hit
  have hnds : (sortByPage gs cluster).Nodup := (hperm.nodup_iff).mpr hnd
  have hndt : t.Nodup := by
    rw [hpt] at hnds
    exact (List.nodup_cons.mp hnds).2
  have happly : applyClusterUpgrade gs cluster = t.foldl (upgradeAt p) gs := by
    unfold applyClusterUpgrade
    rw [if_pos h2, hpt]
    rfl
  have hchar := foldl_upgradeAt_get p t gs hndt
  refine ⟨hperm, hsorted, hhead ▸ hmem_head, ?_, ?_, ?_, ?_, ?_⟩
  · intro i hi
    rw [hhead]
    exact hmin i hi
  · intro j hj
    rw [hpt, List.tail_cons] at hj
    rw [happly, hchar j, hhead, if_pos hj]
  · intro j hj
    rw [hpt, List.tail_cons] at hj
    rw [happly, hchar j, if_neg hj]
  · intro j g hg hdup
    rw [happly, hchar j]
    by_cases hj : j ∈ t
    · rw [if_pos hj, hg]
      have hne2 : ¬ g.finalStatus = Status.UNIQUE := by
        rw [hdup]
        intro hcon
        exact Status.noConfusion hcon
      simp [hne2]
    · rw [if_neg hj, hg]
  · intro j g g2 hg hg2
    rw [happly, hchar j] at hg2
    by_cases hj : j ∈ t
    · rw [if_pos hj, hg] at hg2
      simp only [Option.map_some'] at hg2
      by_cases hs : g.finalStatus = Status.UNIQUE
      · rw [if_pos hs] at hg2
        cases hg2
        rfl
      · rw [if_neg hs] at hg2
        cases hg2
        rfl
    · rw [if_neg hj, hg] at hg2
      cases hg2
      rfl

/-- The two-grievance batch for the C4 counterexample and witness: both on
pages 1 and 2, both UNIQUE after the global pass, with no global match. -/
def c4gs : List GItem :=
  [⟨1, Status.UNIQUE, none, none, false⟩, ⟨2, Status.UNIQUE, none, none, false⟩]

/-- C4 counterexample: DBSCAN clusters the two UNIQUE grievances; the
second is upgraded to NEAR_DUPLICATE and linked in memory (clusteredWith 0),
but its persisted `matched_grievance_id` value is still null — it does not
refer to the primary, contradicting the claim. -/
theorem c4_upgrade_not_persisted :
    (applyDBSCANClustering c4gs [[0, 1]])[1]?
      = some ⟨2, Status.NEAR_DUPLICATE, none, some 0, true⟩
    ∧ ((applyDBSCANClustering c4gs [[0, 1]])[1]?).map persistedMatchedId = some none := by
  exact ⟨by decide, by decide⟩

/-- C4 witness: the upgrade theorem at the concrete two-element batch with
the cluster [0, 1]. -/
theorem c4_dbscan_upgrade_witness :
    (2 ≤ ([0, 1] : List ℕ).length) ∧ ([0, 1] : List ℕ).Nodup
    ∧ (((sortByPage c4gs [0, 1]).Perm [0, 1])
      ∧ List.Sorted (fun a b => pageOf c4gs a ≤ pageOf c4gs b) (sortByPage c4gs [0, 1])
      ∧ ((sortByPage c4gs [0, 1]).headD 0 ∈ ([0, 1] : List ℕ))
      ∧ (∀ i ∈ ([0, 1] : List ℕ),
          pageOf c4gs ((sortByPage c4gs [0, 1]).headD 0) ≤ pageOf c4gs i)
      ∧ (∀ j ∈ (sortByPage c4gs [0, 1]).tail,
          (applyClusterUpgrade c4gs [0, 1])[j]?
            = (c4gs[j]?).map (fun g => if g.finalStatus = Status.UNIQUE
                then upgraded ((sortByPage c4gs [0, 1]).headD 0) g else g))
      ∧ (∀ j : ℕ, j ∉ (sortByPage c4gs [0, 1]).tail →
          (applyClusterUpgrade c4gs [0, 1])[j]? = c4gs[j]?)
      ∧ (∀ (j : ℕ) (g : GItem), c4gs[j]? = some g → g.finalStatus = Status.DUPLICATE →
          (applyClusterUpgrade c4gs [0, 1])[j]? = some g)
      ∧ (∀ (j : ℕ) (g g2 : GItem), c4gs[j]? = some g →
          (applyClusterUpgrade c4gs [0, 1])[j]? = some g2 →
          persistedMatchedId g2 = persistedMatchedId g)) := by
  exact ⟨by decide, by decide, c4_dbscan_upgrade c4gs [0, 1] (by decide) (by decide)⟩

/-! ## Lemmas and claim theorems: cluster materialisation -/

lemma addToClusters_none (acc : List (ℤ × DupCluster)) (r : SavedResult)
    (h : keyOf r = none) : addToClusters acc r = acc := by
  unfold addToClusters
  rw [h]

lemma addToClusters_found (acc : List (ℤ × DupCluster)) (r : SavedResult) (k : ℤ)
    (c : DupCluster) (hk : keyOf r = some k) (hl : acc.lookup k = some c) :
    addToClusters acc r
      = acc.map (fun p =>
          if p.1 = k then
            (k, { p.2 with members := p.2.members ++ [r.id],
                           scores := p.2.scores ++ [r.score] })
          else p) := by
  unfold addToClusters
  rw [hk]
  simp only [hl]

lemma addToClusters_new (acc : List (ℤ × DupCluster)) (r : SavedResult) (k : ℤ)
    (hk : keyOf r = some k) (hl : acc.lookup k = none) :
    addToClusters acc r
      = acc ++ [(k, { clusterType := r.status, primaryId := k,
                      members := [r.id], scores := [r.score] })] := by
  unfold addToClusters
  rw [hk]
  simp only [hl]

lemma addToClusters_inv (P : ℤ → ℤ → Prop) (acc : List (ℤ × DupCluster)) (r : SavedResult)
    (hacc : ∀ q ∈ acc, q.2.primaryId = q.1 ∧ q.2.members ≠ []
      ∧ ∀ mid ∈ q.2.members, P mid q.1)
    (hr : ∀ k : ℤ, keyOf r = some k → P r.id k) :
    ∀ q ∈ addToClusters acc r, q.2.primaryId = q.1 ∧ q.2.members ≠ []
      ∧ ∀ mid ∈ q.2.members, P mid q.1 := by
  intro q hq
  cases hk : keyOf r with
  | none =>
    rw [addToClusters_none acc r hk] at hq
    exact hacc q hq
  | some k =>
    cases hl : acc.lookup k with
    | some c =>
      rw [addToClusters_found acc r k c hk hl] at hq
      obtain ⟨q0, hq0, rfl⟩ := List.mem_map.mp hq
      obtain ⟨h1, h2, h3⟩ := hacc q0 hq0
      by_cases hqk : q0.1 = k
      · rw [if_pos hqk]
        refine ⟨h1 ▸ hqk ▸ rfl, by simp, ?_⟩
        intro mid hmid
        rcases List.mem_append.mp hmid with hold | hnew
        · exact hqk ▸ h3 mid hold
        · rw [List.mem_singleton] at hnew
          subst hnew
          exact hr k hk
      · rw [if_neg hqk]
        exact ⟨h1, h2, h3⟩
    | none =>
      rw [addToClusters_new acc r k hk hl] at hq
      rcases List.mem_append.mp hq with hqa | hqn
      · exact hacc q hqa
      · rw [List.mem_singleton] at hqn
        subst hqn
        refine ⟨rfl, by simp, ?_⟩
        intro mid hmid
        rw [List.mem_singleton] at hmid
        subst hmid
        exact hr k hk

lemma foldl_addToClusters_inv (P : ℤ → ℤ → Prop) :
    ∀ (rs : List SavedResult) (acc : List (ℤ × DupCluster)),
      (∀ q ∈ acc, q.2.primaryId = q.1 ∧ q.2.members ≠ []
        ∧ ∀ mid ∈ q.2.members, P mid q.1) →
      (∀ r ∈ rs, ∀ k : ℤ, keyOf r = some k → P r.id k) →
      ∀ q ∈ rs.foldl addToClusters acc,
        q.2.primaryId = q.1 ∧ q.2.members ≠ [] ∧ ∀ mid ∈ q.2.members, P mid q.1
  | [], acc, hacc, _ => by simpa using hacc
  | r :: rs, acc, hacc, hrs => by
    rw [List.foldl_cons]
    exact foldl_addToClusters_inv P rs (addToClusters acc r)
      (addToClusters_inv P acc r hacc (hrs r (List.mem_cons_self r rs)))
      (fun r2 h2 => hrs r2 (List.mem_cons.mpr (Or.inr h2)))

lemma keyOf_ne_id (r : SavedResult)
    (h : (r.status = Status.DUPLICATE ∨ r.status = Status.NEAR_DUPLICATE) →
      ∃ m : ℤ, r.matchedId = some (MatchId.dbId m) ∧ m ≠ 0 ∧ m ≠ r.id) :
    ∀ k : ℤ, keyOf r = some k → r.id ≠ k := by
  intro k hk
  unfold keyOf at hk
  by_cases hst : r.status = Status.DUPLICATE ∨ r.status = Status.NEAR_DUPLICATE
  · rw [if_pos hst] at hk
    obtain ⟨m, hm, hm0, hmr⟩ := h hst
    rw [hm] at hk
    simp only [if_neg hm0, Option.some_inj] at hk
    subst hk
    exact fun he => hmr he.symm
  · rw [if_neg hst] at hk
    exact absurd hk (by simp)

/-- C5 amended: every cluster the materializer persists has at least one
member (the nonempty-members filter never drops a group), and — PROVIDED
every DUPLICATE/NEAR_DUPLICATE result carries a real, nonzero matched id
different from its own id — the primary never appears in its own members
list.  A null matched id makes the result head its own cluster as a member
of itself. -/
theorem c5_cluster_invariants (results : List SavedResult)
    (h : ∀ r ∈ results, (r.status = Status.DUPLICATE ∨ r.status = Status.NEAR_DUPLICATE) →
          ∃ m : ℤ, r.matchedId = some (MatchId.dbId m) ∧ m ≠ 0 ∧ m ≠ r.id) :
    (∀ c ∈ formDuplicateClusters results, c.members ≠ [])
    ∧ (∀ c ∈ formDuplicateClusters results, c.primaryId ∉ c.members) := by
  have hinv := foldl_addToClusters_inv (fun mid k => mid ≠ k) results []
    (by simp) (fun r hr => keyOf_ne_id r (h r hr))
  constructor
  · intro c hc
    unfold formDuplicateClusters at hc
    rcases List.mem_filter.mp hc with ⟨hcm, hne⟩
    simp only [decide_eq_true_eq] at hne
    intro hnil
    rw [hnil] at hne
    simp at hne
  · intro c hc
    unfold formDuplicateClusters at hc
    rcases List.mem_filter.mp hc with ⟨hcm, _⟩
    obtain ⟨q, hq, rfl⟩ := List.mem_map.mp hcm
    obtain ⟨h1, _, h3⟩ := hinv q hq
    intro hmem
    exact (h3 _ hmem) h1

/-- C5 counterexample: a NEAR_DUPLICATE result with a null matched id (as
DBSCAN-upgraded grievances have) is grouped under its OWN id — the
resulting cluster contains its primary in the members list. -/
theorem c5_primary_in_own_members :
    ¬ (∀ c ∈ formDuplicateClusters [⟨5, Status.NEAR_DUPLICATE, none, 7/10⟩],
        c.primaryId ∉ c.members) := by
  decide

/-- C5 witness: the invariants theorem at two concrete results matched to
historical grievance 3. -/
theorem c5_cluster_invariants_witness :
    (∀ r ∈ [(⟨7, Status.DUPLICATE, some (MatchId.dbId 3), 0⟩ : SavedResult),
            ⟨8, Status.NEAR_DUPLICATE, some (MatchId.dbId 3), 0⟩],
      (r.status = Status.DUPLICATE ∨ r.status = Status.NEAR_DUPLICATE) →
        ∃ m : ℤ, r.matchedId = some (MatchId.dbId m) ∧ m ≠ 0 ∧ m ≠ r.id)
    ∧ ((∀ c ∈ formDuplicateClusters
          [(⟨7, Status.DUPLICATE, some (MatchId.dbId 3), 0⟩ : SavedResult),
           ⟨8, Status.NEAR_DUPLICATE, some (MatchId.dbId 3), 0⟩], c.members ≠ [])
       ∧ (∀ c ∈ formDuplicateClusters
            [(⟨7, Status.DUPLICATE, some (MatchId.dbId 3), 0⟩ : SavedResult),
             ⟨8, Status.NEAR_DUPLICATE, some (MatchId.dbId 3), 0⟩],
          c.primaryId ∉ c.members)) := by
  have h : ∀ r ∈ [(⟨7, Status.DUPLICATE, some (MatchId.dbId 3), 0⟩ : SavedResult),
      ⟨8, Status.NEAR_DUPLICATE, some (MatchId.dbId 3), 0⟩],
      (r.status = Status.DUPLICATE ∨ r.status = Status.NEAR_DUPLICATE) →
        ∃ m : ℤ, r.matchedId = some (MatchId.dbId m) ∧ m ≠ 0 ∧ m ≠ r.id := by
    intro r hr _
    rcases List.mem_cons.mp hr with rfl | hr2
    · exact ⟨3, rfl, by decide, by decide⟩
    · rcases List.mem_cons.mp hr2 with rfl | hr3
      · exact ⟨3, rfl, by decide, by decide⟩
      · simp at hr3
  exact ⟨h, c5_cluster_invariants _ h⟩
